import Mathlib

/-!
# Verification of the node-bluez object-graph synchronizer

Shallow embedding of `src/lib/Bluez.js`: the notification reconciler
(`onInterfacesAdded`, `onInterfaceRemoved`) and the handle resolver
(`getAdapter`, `getDevice`), together with the mutable object graph they
maintain (`this.adapter`, `this.devices`, `this._path` and the JS objects
these maps point to).

JavaScript objects are aliased (e.g. a Service object is reachable both from
`this._path[servicePath]` and from `device.services[uuid]`, and mutations
through one alias are visible through the other), so entities live in an
explicit heap (`List Obj`, allocation order, id = index) and the maps store
heap ids.  Assoc lists model JS objects used as dictionaries: assignment to
an existing key updates it in place (preserving insertion order), assignment
to a fresh key appends, `delete` removes the key.

The D-Bus transport (`bus.getInterface`, promisified) is modelled as a
function `Transport : path → interfaceName → Bool` saying which binds
succeed; every call is recorded in the state so that bind behaviour is
observable.  `async` functions that throw are modelled by returning the
state reached so far together with `some error` (mutations performed before
the throw persist, later statements are skipped), mirroring a rejected
promise from an `async` method.
-/

namespace Bluez

/-! ## Assoc lists with JavaScript object-literal semantics -/

/-- Lookup in a JS object used as a map (`o[k]`, `undefined` ↦ `none`). -/
def alookup {α : Type} (k : String) : List (String × α) → Option α
  | [] => none
  | (k', v) :: rest => if k' = k then some v else alookup k rest

/-- Assignment `o[k] = v`: updates in place if the key exists (JS keeps the
original insertion position), otherwise appends. -/
def aset {α : Type} (k : String) (v : α) : List (String × α) → List (String × α)
  | [] => [(k, v)]
  | (k', v') :: rest => if k' = k then (k, v) :: rest else (k', v') :: aset k v rest

/-- `delete o[k]`. -/
def adel {α : Type} (k : String) : List (String × α) → List (String × α)
  | [] => []
  | (k', v') :: rest => if k' = k then rest else (k', v') :: adel k rest

/-! ## String helpers mirroring the JS regexes

`Bluez.js` uses three anchored regexes:
* `^/org/bluez/(\w+)/dev_(\w+)$`            (in `getDevice`)
* `^/org/bluez/(\w+)(?:/dev_(\w+))?$`       (in `onInterfaceRemoved`)
* `^/org/bluez/(\w+)$`                      (in `getAdapter`)
and the global single-character replacements `.replace(/:/g, "_")` and
`.replace(/_/g, ":")`. -/

/-- JS `\w`: `[A-Za-z0-9_]`. -/
def wordChar (c : Char) : Bool :=
  ('a' ≤ c ∧ c ≤ 'z') || ('A' ≤ c ∧ c ≤ 'Z') || ('0' ≤ c ∧ c ≤ '9') || c = '_'

/-- A nonempty run of word characters (`\w+`). -/
def isWord (l : List Char) : Bool :=
  !l.isEmpty && l.all wordChar

/-- `s.replace(/a/g, "b")` for single characters `a`, `b`. -/
def replaceAll (a b : Char) (s : String) : String :=
  ⟨s.data.map fun c => if c = a then b else c⟩

/-- Drop an expected literal prefix, returning the remainder. -/
def dropPrefix : List Char → List Char → Option (List Char)
  | [], l => some l
  | _ :: _, [] => none
  | p :: ps, c :: cs => if c = p then dropPrefix ps cs else none

/-- Split on `'/'` (components between slashes, like `String.prototype.split`). -/
def splitSlash : List Char → List (List Char)
  | [] => [[]]
  | c :: cs =>
    match splitSlash cs with
    | [] => [[]]
    | g :: gs => if c = '/' then [] :: g :: gs else (c :: g) :: gs

/-- Match `^/org/bluez/(\w+)/dev_(\w+)$`, returning the two groups. -/
def matchDevPath (s : String) : Option (String × String) :=
  match dropPrefix "/org/bluez/".data s.data with
  | none => none
  | some rest =>
    match splitSlash rest with
    | [w1, w2] =>
      match dropPrefix "dev_".data w2 with
      | some d => if isWord w1 && isWord d then some (⟨w1⟩, ⟨d⟩) else none
      | none => none
    | _ => none

/-- Match `^/org/bluez/(\w+)(?:/dev_(\w+))?$`; `none` models a null match,
otherwise the pair is (group 1, optional group 2). -/
def matchRemovePath (s : String) : Option (String × Option String) :=
  match dropPrefix "/org/bluez/".data s.data with
  | none => none
  | some rest =>
    match splitSlash rest with
    | [w1] => if isWord w1 then some (⟨w1⟩, none) else none
    | [w1, w2] =>
      match dropPrefix "dev_".data w2 with
      | some d => if isWord w1 && isWord d then some (⟨w1⟩, some ⟨d⟩) else none
      | none => none
    | _ => none

/-- Match `^/org/bluez/(\w+)$`. -/
def matchAdapterPath (s : String) : Option String :=
  match dropPrefix "/org/bluez/".data s.data with
  | none => none
  | some rest =>
    match splitSlash rest with
    | [w1] => if isWord w1 then some ⟨w1⟩ else none
    | _ => none

/-! ## Data model -/

/-- An interface handle returned by the transport: the result of
`bus.getInterface('org.bluez', path, iface)` (the destination is always
`'org.bluez'` in `Bluez.js`, so it is omitted). -/
structure IfaceHandle where
  path : String
  iface : String
deriving DecidableEq, Repr

/-- The property bag of one capability interface in a notification.  The
reconciler reads the named fields (`props.Address`, `props.Device`,
`props.UUID`, `props.Service`, `props.Characteristic`); all other properties
(e.g. `Connected`, `Name`) are carried opaquely in `rest`. -/
structure PropBag where
  address : String := ""
  device : String := ""
  uuid : String := ""
  service : String := ""
  characteristic : String := ""
  rest : List (String × String) := []
deriving DecidableEq, Repr

/-- Identity of a heap object: which class it is an instance of, with the
transport handles captured by its constructor.

`Service.js` / `Characteristic.js` / `Descriptor.js` / `Device.js` are not
part of the sources; their constructors are modelled from the spec (§3): a
Device owns a map of Service by UUID, a Service owns a map of Characteristic
by UUID, a Characteristic owns a map of Descriptor by UUID, a Descriptor has
no children, each map initially empty. -/
inductive ObjKind where
  /-- `new Device(interface_, changed_)` -/
  | device (iface changed : IfaceHandle)
  /-- `new Service(iface)` -/
  | service (iface : IfaceHandle)
  /-- `new Characteristic(iface, changed)` -/
  | characteristic (iface changed : IfaceHandle)
  /-- `new Descriptor(iface)` -/
  | descriptor (iface : IfaceHandle)
  /-- the object literals `{characteristics: {}}` / `{descriptors: {}}`
  used to hold orphaned children (`Bluez.js` lines 306, 319) -/
  | placeholder
deriving DecidableEq, Repr

/-- A heap object.  A `none` map field models a JS property that is
`undefined` on this object (reading it gives `undefined`, assigning into it
throws a `TypeError`). -/
structure Obj where
  kind : ObjKind
  services : Option (List (String × Nat)) := none
  characteristics : Option (List (String × Nat)) := none
  descriptors : Option (List (String × Nat)) := none
deriving DecidableEq, Repr

/-- A value of `this.devices[address]`: either the object path string stored
by `onInterfacesAdded` or a constructed `Device` instance (heap id). -/
inductive DevVal where
  | path (p : String)
  | obj (id : Nat)
deriving DecidableEq, Repr

/-- A value of `this.adapter[dev]`: `getAdapter` checks for a string value
before using the constructed-`Adapter` case, so both are represented.
`Adapter.js` is not in the sources; modelled from the spec (§3, §4.4) as a
thin capability handle wrapping the bound interface. -/
inductive AdapterVal where
  | path (p : String)
  | obj (h : IfaceHandle)
deriving DecidableEq, Repr

/-- Events emitted via `this.emit`. -/
inductive Event where
  | device (address : String) (props : PropBag)
  | error (msg : String)
deriving DecidableEq, Repr

/-- JS exceptions: `new Error(msg)` throws, `TypeError` from accessing a
property of `null`/`undefined`, and a rejected `getInterface` promise. -/
inductive JsError where
  | jsError (msg : String)
  | typeError (msg : String)
  | transport (path iface : String)
deriving DecidableEq, Repr

/-- The mutable state of one `Bluez` instance.  `events` and `binds` are
logs (most recent first) recording the externally observable actions. -/
structure BluezState where
  adapter_props : Option PropBag := none
  adapter : List (String × AdapterVal) := []
  devices : List (String × DevVal) := []
  pathMap : List (String × Nat) := []
  heap : List Obj := []
  events : List Event := []
  binds : List IfaceHandle := []
deriving DecidableEq, Repr

/-- The freshly constructed `Bluez` instance. -/
def init : BluezState := {}

/-- Heap read. -/
def hget (h : List Obj) (i : Nat) : Option Obj := h.get? i

/-- Heap write (in-place mutation of an existing object). -/
def hset (h : List Obj) (i : Nat) (o : Obj) : List Obj := h.set i o

/-! ## The transport collaborator -/

/-- Which `(path, interfaceName)` binds the external service can satisfy. -/
def Transport : Type := String → String → Bool

/-- `await this.getInterface('org.bluez', path, iface)`: the call is always
made (and recorded); it yields a handle or rejects. -/
def getInterface (t : Transport) (s : BluezState) (path iface : String) :
    BluezState × Except JsError IfaceHandle :=
  ({ s with binds := ⟨path, iface⟩ :: s.binds },
   if t path iface then .ok ⟨path, iface⟩ else .error (.transport path iface))

/-! ## Handle resolver -/

/-- Lines 71-73 of `getDevice`: extract the `dev_` segment if the input is a
full device path, then replace `_` by `:`. -/
def normalizeAddr (address0 : String) : String :=
  replaceAll '_' ':'
    (match matchDevPath address0 with
     | some m => m.2
     | none => address0)

/-- `Bluez.getDevice(address)` (`Bluez.js` lines 69-89).  Returns the heap id
of the `Device` instance.  The `original` identifier used for the
`DBus.Properties` bind is the raw input with `:` replaced by `_` (computed
before the path-form normalisation), and the bind path hardcodes `hci0`. -/
def getDevice (t : Transport) (s : BluezState) (address0 : String) :
    BluezState × Except JsError Nat :=
  let original := replaceAll ':' '_' address0
  let address := normalizeAddr address0
  match alookup address s.devices with
  | some (.obj id) => (s, .ok id)
  | none => (s, .error (.jsError "Device not found"))
  | some (.path p) =>
    match getInterface t s p "org.bluez.Device1" with
    | (s1, .error e) => (s1, .error e)
    | (s1, .ok iface) =>
      match getInterface t s1 ("/org/bluez/hci0/dev_" ++ original)
          "org.freedesktop.DBus.Properties" with
      | (s2, .error e) => (s2, .error e)
      | (s2, .ok changed) =>
        -- "need to check here again, there might be a race because of await"
        match alookup address s2.devices with
        | some (.obj id) => (s2, .ok id)
        | _ =>
          let id := s2.heap.length
          let dObj : Obj := { kind := .device iface changed, services := some [] }
          ({ s2 with heap := s2.heap ++ [dObj],
                     devices := aset address (.obj id) s2.devices }, .ok id)

/-- `Bluez.getAdapter(dev)` (`Bluez.js` lines 46-67).  The transport error is
caught and converted into `new Error("Adapter not found")`. -/
def getAdapter (t : Transport) (s : BluezState) (dev0 : String) :
    BluezState × Except JsError IfaceHandle :=
  let dev :=
    match matchAdapterPath dev0 with
    | some m => m
    | none => dev0
  match alookup dev s.adapter with
  | some (.obj a) => (s, .ok a)
  | other =>
    let path :=
      match other with
      | some (.path p) => p
      | _ => "/org/bluez/" ++ dev
    match getInterface t s path "org.bluez.Adapter1" with
    | (s1, .error _) => (s1, .error (.jsError "Adapter not found"))
    | (s1, .ok iface) =>
      ({ s1 with adapter := aset dev (.obj iface) s1.adapter }, .ok iface)

/-! ## Notification reconciler -/

/-- The capability interfaces named by one `InterfacesAdded` notification,
restricted to the five keys `onInterfacesAdded` tests for (all other keys in
the D-Bus dictionary are ignored by the source). -/
structure AddedIfaces where
  adapter1 : Option PropBag := none
  device1 : Option PropBag := none
  gattService1 : Option PropBag := none
  gattCharacteristic1 : Option PropBag := none
  gattDescriptor1 : Option PropBag := none
deriving DecidableEq, Repr

/-- Mutate the heap object `id` in place (no-op on a dangling id, which
cannot occur for states built by the source operations). -/
def modifyObj (s : BluezState) (id : Nat) (f : Obj → Obj) : BluezState :=
  match hget s.heap id with
  | some o => { s with heap := hset s.heap id (f o) }
  | none => s

/-- The `'org.bluez.GattService1' in interfaces` branch
(`Bluez.js` lines 276-291). -/
def addService (t : Transport) (s : BluezState) (path : String) (props : PropBag) :
    BluezState × Option JsError :=
  match getInterface t s path "org.bluez.GattService1" with
  | (s1, .error e) => (s1, some e)
  | (s1, .ok iface) =>
    -- const service = new Service(iface);
    let sid := s1.heap.length
    let s2 := { s1 with
      heap := s1.heap ++ [({ kind := .service iface, characteristics := some [] } : Obj)] }
    match getDevice t s2 props.device with
    | (s3, .error e) => (s3, some e)
    | (s3, .ok did) =>
      -- if (this._path[path]) service.characteristics = this._path[path].characteristics || {};
      let s4 :=
        match alookup path s3.pathMap with
        | some pid =>
          match hget s3.heap pid with
          | some pobj =>
            modifyObj s3 sid fun o => { o with characteristics := some (pobj.characteristics.getD []) }
          | none => s3
        | none => s3
      -- dev.services[props.UUID] = service;
      match hget s4.heap did with
      | some dobj =>
        match dobj.services with
        | some svcs =>
          let s5 := { s4 with heap := hset s4.heap did { dobj with services := some (aset props.uuid sid svcs) } }
          -- this._path[path] = service;
          ({ s5 with pathMap := aset path sid s5.pathMap }, none)
        | none => (s4, some (.typeError "Cannot set properties of undefined"))
      | none => (s4, some (.typeError "Cannot set properties of undefined"))

/-- The `'org.bluez.GattCharacteristic1' in interfaces` branch
(`Bluez.js` lines 292-310). -/
def addCharacteristic (t : Transport) (s : BluezState) (path : String) (props : PropBag) :
    BluezState × Option JsError :=
  match getInterface t s path "org.bluez.GattCharacteristic1" with
  | (s1, .error e) => (s1, some e)
  | (s1, .ok iface) =>
    match getInterface t s1 path "org.freedesktop.DBus.Properties" with
    | (s2, .error e) => (s2, some e)
    | (s2, .ok changed) =>
      -- const characteristic = new Characteristic(iface, changed);
      let cid := s2.heap.length
      let s3 := { s2 with
        heap := s2.heap ++ [({ kind := .characteristic iface changed, descriptors := some [] } : Obj)] }
      -- if (this._path[path]) characteristic.descriptors = this._path[path].descriptors || {};
      let s4 :=
        match alookup path s3.pathMap with
        | some pid =>
          match hget s3.heap pid with
          | some pobj =>
            modifyObj s3 cid fun o => { o with descriptors := some (pobj.descriptors.getD []) }
          | none => s3
        | none => s3
      -- if (!this._path[props.Service]) this._path[props.Service] = { characteristics: {} };
      let s5 :=
        match alookup props.service s4.pathMap with
        | some _ => s4
        | none =>
          { s4 with
            heap := s4.heap ++ [({ kind := .placeholder, characteristics := some [] } : Obj)],
            pathMap := aset props.service s4.heap.length s4.pathMap }
      -- this._path[props.Service].characteristics[props.UUID] = characteristic;
      match alookup props.service s5.pathMap with
      | some oid =>
        match hget s5.heap oid with
        | some oobj =>
          match oobj.characteristics with
          | some cs =>
            let s6 := { s5 with heap := hset s5.heap oid { oobj with characteristics := some (aset props.uuid cid cs) } }
            -- this._path[path] = characteristic;
            ({ s6 with pathMap := aset path cid s6.pathMap }, none)
          | none => (s5, some (.typeError "Cannot set properties of undefined"))
        | none => (s5, some (.typeError "Cannot set properties of undefined"))
      | none => (s5, some (.typeError "Cannot set properties of undefined"))

/-- The `'org.bluez.GattDescriptor1' in interfaces` branch
(`Bluez.js` lines 311-322).  Note the descriptor is *not* entered into
`this._path`. -/
def addDescriptor (t : Transport) (s : BluezState) (path : String) (props : PropBag) :
    BluezState × Option JsError :=
  match getInterface t s path "org.bluez.GattDescriptor1" with
  | (s1, .error e) => (s1, some e)
  | (s1, .ok iface) =>
    -- const descriptor = new Descriptor(iface);
    let did := s1.heap.length
    let s2 := { s1 with heap := s1.heap ++ [({ kind := .descriptor iface } : Obj)] }
    -- if (!this._path[props.Characteristic]) this._path[props.Characteristic] = { descriptors: {} };
    let s3 :=
      match alookup props.characteristic s2.pathMap with
      | some _ => s2
      | none =>
        { s2 with
          heap := s2.heap ++ [({ kind := .placeholder, descriptors := some [] } : Obj)],
          pathMap := aset props.characteristic s2.heap.length s2.pathMap }
    -- this._path[props.Characteristic].descriptors[props.UUID] = descriptor;
    match alookup props.characteristic s3.pathMap with
    | some oid =>
      match hget s3.heap oid with
      | some oobj =>
        match oobj.descriptors with
        | some ds =>
          ({ s3 with heap := hset s3.heap oid { oobj with descriptors := some (aset props.uuid did ds) } }, none)
        | none => (s3, some (.typeError "Cannot set properties of undefined"))
      | none => (s3, some (.typeError "Cannot set properties of undefined"))
    | none => (s3, some (.typeError "Cannot set properties of undefined"))

/-- Sequencing inside the rejecting `async` handler: if the previous
statement threw, the rest of the handler is skipped (the state reached so
far is kept); otherwise execution continues. -/
def andThen (r : BluezState × Option JsError)
    (f : BluezState → BluezState × Option JsError) : BluezState × Option JsError :=
  match r with
  | (s', some e) => (s', some e)
  | (s', none) => f s'

/-- One `if (capability in interfaces) { ... }` guard: run the branch body
when the capability is named, otherwise do nothing. -/
def optStage (f : BluezState → PropBag → BluezState × Option JsError)
    (o : Option PropBag) (s : BluezState) : BluezState × Option JsError :=
  match o with
  | some props => f s props
  | none => (s, none)

/-- `Bluez.onInterfacesAdded(path, interfaces)` (`Bluez.js` lines 262-323).
The five capability branches run in source order; a throw inside one branch
rejects the `async` handler, keeping the mutations made so far and skipping
the remaining branches (`andThen`). -/
def onInterfacesAdded (t : Transport) (s : BluezState) (path : String)
    (ifaces : AddedIfaces) : BluezState × Option JsError :=
  -- if ('org.bluez.Adapter1' in interfaces) this.adapter_props = props;
  let s1 :=
    match ifaces.adapter1 with
    | some props => { s with adapter_props := some props }
    | none => s
  -- if ('org.bluez.Device1' in interfaces) { this.devices[props.Address] = path; this.emit('device', ...); }
  let s2 :=
    match ifaces.device1 with
    | some props =>
      { s1 with devices := aset props.address (.path path) s1.devices,
                events := .device props.address props :: s1.events }
    | none => s1
  andThen (optStage (fun s' props => addService t s' path props)
      ifaces.gattService1 s2) fun s3 =>
  andThen (optStage (fun s' props => addCharacteristic t s' path props)
      ifaces.gattCharacteristic1 s3) fun s4 =>
  optStage (fun s' props => addDescriptor t s' path props)
    ifaces.gattDescriptor1 s4

/-- The `'org.bluez.Adapter1'` part of `onInterfaceRemoved`
(`Bluez.js` lines 341-348), reached only if the Device part did not throw. -/
def removeAdapterPart (s : BluezState) (m : Option (String × Option String))
    (interfaces : List String) : BluezState × Option JsError :=
  if "org.bluez.Adapter1" ∈ interfaces then
    match m with
    | none => (s, some (.typeError "Cannot read properties of null"))
    | some (w1, _) =>
      -- if (match[1]) — group 1 of the regex is always a nonempty string
      if w1.data.isEmpty then
        ({ s with events := .error "Removed Adapter with unknown path" :: s.events }, none)
      else
        ({ s with adapter := adel w1 s.adapter }, none)
  else (s, none)

/-- `Bluez.onInterfaceRemoved(path, interfaces)` (`Bluez.js` lines 329-349).
When the regex does not match, `match` is `null` and `match[2]` / `match[1]`
throws a `TypeError`, rejecting the handler. -/
def onInterfaceRemoved (s : BluezState) (path : String) (interfaces : List String) :
    BluezState × Option JsError :=
  let m := matchRemovePath path
  if "org.bluez.Device1" ∈ interfaces then
    match m with
    | none => (s, some (.typeError "Cannot read properties of null"))
    | some (_, some w2) =>
      let addr := replaceAll '_' ':' w2
      removeAdapterPart { s with devices := adel addr s.devices } m interfaces
    | some (_, none) =>
      removeAdapterPart
        { s with events := .error "Removed Device with unknown path" :: s.events } m interfaces
  else removeAdapterPart s m interfaces

/-! ## Observations on the object graph -/

/-- Does the device registered under `addr` exist as a constructed `Device`
whose `services` map contains `uuid`? -/
def deviceHasService (s : BluezState) (addr uuid : String) : Bool :=
  match alookup addr s.devices with
  | some (.obj did) =>
    match hget s.heap did with
    | some d => (alookup uuid (d.services.getD [])).isSome
    | none => false
  | _ => false

/-- Is a characteristic with UUID `cuuid` reachable from the device at
`addr` through the service with UUID `suuid` (device's service map, then
service's characteristic map)? -/
def deviceServiceChar (s : BluezState) (addr suuid cuuid : String) : Bool :=
  match alookup addr s.devices with
  | some (.obj did) =>
    match hget s.heap did with
    | some d =>
      match alookup suuid (d.services.getD []) with
      | some sid =>
        match hget s.heap sid with
        | some so => (alookup cuuid (so.characteristics.getD [])).isSome
        | none => false
      | none => false
    | none => false
  | _ => false

/-- Count the `'device'` events in an event log. -/
def countDeviceEvents : List Event → Nat
  | [] => 0
  | .device _ _ :: rest => countDeviceEvents rest + 1
  | .error _ :: rest => countDeviceEvents rest

/-- Count the recorded transport binds for a given interface name. -/
def countBinds (iface : String) : List IfaceHandle → Nat
  | [] => 0
  | h :: rest => (if h.iface = iface then 1 else 0) + countBinds iface rest

/-! ## Depth-indexed observable view

Heap ids are an artifact of the embedding (JS replaces an object by an
equal-looking fresh one on replay), so "same entity state" is stated on the
*observable* object graph: every heap reference unfolded up to a given
depth.  Two states with equal views at every depth present exactly the same
object graph to a client traversing it. -/

/-- The observable content of one object, references unfolded to a depth. -/
inductive PureObj where
  /-- depth budget exhausted -/
  | cut
  /-- dangling heap id (never produced by the source operations) -/
  | dead
  | node (kind : ObjKind) (services characteristics descriptors : Option (List (String × PureObj)))

/-- Unfold heap object `i` to depth `d`. -/
def viewObj : Nat → List Obj → Nat → PureObj
  | 0, _, _ => .cut
  | d + 1, h, i =>
    match hget h i with
    | none => .dead
    | some o =>
      .node o.kind
        (o.services.map fun l => l.map fun kv => (kv.1, viewObj d h kv.2))
        (o.characteristics.map fun l => l.map fun kv => (kv.1, viewObj d h kv.2))
        (o.descriptors.map fun l => l.map fun kv => (kv.1, viewObj d h kv.2))

/-- An entry of `this.devices`, observed. -/
inductive PureDev where
  | path (p : String)
  | obj (o : PureObj)

/-- Observe one `this.devices` entry. -/
def viewDevVal (d : Nat) (h : List Obj) : DevVal → PureDev
  | .path p => PureDev.path p
  | .obj i => PureDev.obj (viewObj d h i)

/-- The observable entity state: everything a client can reach from the
instance's maps, with heap ids dereferenced (the event and bind logs are
I/O records, not entity state). -/
structure ViewState where
  adapter_props : Option PropBag
  adapter : List (String × AdapterVal)
  devices : List (String × PureDev)
  pathMap : List (String × PureObj)

/-- Observe a whole state at depth `d`. -/
def viewState (d : Nat) (s : BluezState) : ViewState where
  adapter_props := s.adapter_props
  adapter := s.adapter
  devices := s.devices.map fun kv => (kv.1, viewDevVal d s.heap kv.2)
  pathMap := s.pathMap.map fun kv => (kv.1, viewObj d s.heap kv.2)

/-! ## Interleaving model for concurrent `getDevice` calls

`getDevice` has two `await` suspension points (the two `getInterface`
calls, lines 79 and 81).  A call is split into three atomic segments: the
synchronous prefix up to and including issuing the first bind, the segment
issuing the second bind, and the post-await recheck-and-install segment.
Two concurrent callers for the same address interleave these segments in
any order; the shared `BluezState` is the `this` they both mutate. -/

deriving instance DecidableEq for Except

/-- Per-caller coroutine state: program counter (0 = at start, 1 = first
bind done, 2 = second bind done, 3 = returned) and locals. -/
structure Caller where
  pc : Nat := 0
  iface : Option IfaceHandle := none
  changed : Option IfaceHandle := none
  result : Option (Except JsError Nat) := none
deriving DecidableEq, Repr

/-- Run one segment of `getDevice address0` for one caller. -/
def raceStep (t : Transport) (address0 : String) (g : BluezState) (c : Caller) :
    BluezState × Caller :=
  let original := replaceAll ':' '_' address0
  let address := normalizeAddr address0
  match c.pc with
  | 0 =>
    match alookup address g.devices with
    | some (.obj id) => (g, { c with pc := 3, result := some (.ok id) })
    | none => (g, { c with pc := 3, result := some (.error (.jsError "Device not found")) })
    | some (.path p) =>
      match getInterface t g p "org.bluez.Device1" with
      | (g1, .error e) => (g1, { c with pc := 3, result := some (.error e) })
      | (g1, .ok iface) => (g1, { c with pc := 1, iface := some iface })
  | 1 =>
    match getInterface t g ("/org/bluez/hci0/dev_" ++ original)
        "org.freedesktop.DBus.Properties" with
    | (g1, .error e) => (g1, { c with pc := 3, result := some (.error e) })
    | (g1, .ok changed) => (g1, { c with pc := 2, changed := some changed })
  | 2 =>
    match alookup address g.devices with
    | some (.obj id) => (g, { c with pc := 3, result := some (.ok id) })
    | _ =>
      match c.iface, c.changed with
      | some iface, some changed =>
        let id := g.heap.length
        ({ g with
             heap := g.heap ++ [({ kind := .device iface changed, services := some [] } : Obj)],
             devices := aset address (.obj id) g.devices },
         { c with pc := 3, result := some (.ok id) })
      | _, _ => (g, { c with pc := 3, result := some (.error (.typeError "unreachable")) })
  | _ => (g, c)

/-- Run an interleaving: `true` schedules caller A, `false` caller B. -/
def runRace (t : Transport) (address0 : String) :
    BluezState → Caller → Caller → List Bool → BluezState × Caller × Caller
  | g, a, b, [] => (g, a, b)
  | g, a, b, w :: rest =>
    if w then
      match raceStep t address0 g a with
      | (g', a') => runRace t address0 g' a' b rest
    else
      match raceStep t address0 g b with
      | (g', b') => runRace t address0 g' a b' rest

/-- All boolean schedules of a given length. -/
def boolLists : Nat → List (List Bool)
  | 0 => [[]]
  | n + 1 => (boolLists n).flatMap fun l => [true :: l, false :: l]

/-! ## Concrete fixtures

One adapter `hci0`, one device `AA:BB:CC:DD:EE:FF`, one GATT service and one
characteristic under it, on a transport that satisfies every bind. -/

/-- A transport that satisfies every bind request. -/
def tAll : Transport := fun _ _ => true

def devPath : String := "/org/bluez/hci0/dev_AA_BB_CC_DD_EE_FF"

def svcPath : String := "/org/bluez/hci0/dev_AA_BB_CC_DD_EE_FF/service0008"

def chrPath : String := "/org/bluez/hci0/dev_AA_BB_CC_DD_EE_FF/service0008/char0009"

def devAddr : String := "AA:BB:CC:DD:EE:FF"

def devProps : PropBag := { address := devAddr, rest := [("Connected", "false")] }

def svcProps : PropBag := { device := devPath, uuid := "svc-uuid" }

def chrProps : PropBag := { service := svcPath, uuid := "chr-uuid" }

/-- State after the adapter-added notification (the first step of the §8
lookup scenario). -/
def sAdapter : BluezState :=
  (onInterfacesAdded tAll init "/org/bluez/hci0"
    { adapter1 := some { rest := [("Address", "00:11:22:33:44:55")] } }).1

/-- State after adapter-added then device-added. -/
def sDevice : BluezState :=
  (onInterfacesAdded tAll sAdapter devPath { device1 := some devProps }).1

/-- Replaying the same device-added notification once more. -/
def sDeviceTwice : BluezState :=
  (onInterfacesAdded tAll sDevice devPath { device1 := some devProps }).1

/-- Parent-before-child order: device, then service, then characteristic. -/
def sGoodOrder : BluezState :=
  let s2 := (onInterfacesAdded tAll sDevice svcPath { gattService1 := some svcProps }).1
  (onInterfacesAdded tAll s2 chrPath { gattCharacteristic1 := some chrProps }).1

/-- The service-added notification fed first, while its device path does not
exist yet (the C1 scenario's first step). -/
def sSvcFirst : BluezState × Option JsError :=
  onInterfacesAdded tAll init svcPath { gattService1 := some svcProps }

/-- The C1 scenario order: service-added (device missing), then
device-added, then characteristic-added. -/
def sBadOrder : BluezState :=
  let s2 := (onInterfacesAdded tAll sSvcFirst.1 devPath { device1 := some devProps }).1
  (onInterfacesAdded tAll s2 chrPath { gattCharacteristic1 := some chrProps }).1

/-- Device and service registered (used by the removal claims). -/
def sDevSvc : BluezState :=
  (onInterfacesAdded tAll sDevice svcPath { gattService1 := some svcProps }).1

/-- `sDevice` after `getDevice` has constructed the device handle. -/
def sResolved : BluezState := (getDevice tAll sDevice devAddr).1

/-- `sResolved` after a removal of the Device capability at the device's
path. -/
def sRemoved : BluezState :=
  (onInterfaceRemoved sResolved devPath ["org.bluez.Device1"]).1

/-- The fully concurrent two-caller schedule: A and B alternate segments,
both checks running before either install. -/
def raceOutcome (order : List Bool) : BluezState × Caller × Caller :=
  runRace tAll devAddr sDevice {} {} order

/-- A registry whose only device was announced on adapter `hci1` (used to
exhibit the hardcoded `hci0` in `getDevice`'s Properties bind). -/
def sHci1 : BluezState :=
  { devices := [("AA:BB", .path "/org/bluez/hci1/dev_AA_BB")] }

/-- The object built by `new Service(iface)` for a service at `p`. -/
def svcObj (p : String) : Obj :=
  { kind := .service ⟨p, "org.bluez.GattService1"⟩, characteristics := some [] }

/-- The object built by `new Characteristic(iface, changed)` at `p`. -/
def chrObj (p : String) : Obj :=
  { kind := .characteristic ⟨p, "org.bluez.GattCharacteristic1"⟩
      ⟨p, "org.freedesktop.DBus.Properties"⟩,
    descriptors := some [] }

/-- The object built by `new Device(interface_, changed_)` when resolving a
device registered at path `p` from the raw identifier `orig`. -/
def devObj (p orig : String) : Obj :=
  { kind := .device ⟨p, "org.bluez.Device1"⟩
      ⟨"/org/bluez/hci0/dev_" ++ orig, "org.freedesktop.DBus.Properties"⟩,
    services := some [] }

/-! ## Replay fixtures for the idempotence claim

A characteristic is first orphaned under `svcPath`; the replayed
notification names both the service and a second characteristic at
`svcPath` itself. -/

/-- Device registered, then a characteristic orphaned under `svcPath`. -/
def c9S : BluezState :=
  (onInterfacesAdded tAll sDevice chrPath { gattCharacteristic1 := some chrProps }).1

/-- A notification naming both GattService1 and GattCharacteristic1 at one
path (the characteristic's Service reference is that same path). -/
def c9N : AddedIfaces :=
  { gattService1 := some svcProps,
    gattCharacteristic1 := some { service := svcPath, uuid := "chr2-uuid" } }

/-- `c9N` applied once at `svcPath`. -/
def c9Once : BluezState × Option JsError := onInterfacesAdded tAll c9S svcPath c9N

/-- `c9N` applied a second time. -/
def c9Twice : BluezState × Option JsError := onInterfacesAdded tAll c9Once.1 svcPath c9N

/-! ## Observable-equality relations

Replaying a notification rebuilds some JS objects afresh, so the once- and
twice-states differ in heap ids while presenting the same object graph.  A
relation `r` on ids is a *simulation* when related ids carry objects of the
same class whose child maps are pointwise related; related ids then have
identical views at every depth. -/

/-- Pointwise relation between two (possibly `undefined`) child maps. -/
def omRel (r : Nat → Nat → Prop) :
    Option (List (String × Nat)) → Option (List (String × Nat)) → Prop
  | none, none => True
  | some l2, some l1 => List.Forall₂ (fun a b => a.1 = b.1 ∧ r a.2 b.2) l2 l1
  | _, _ => False

/-- Two heap objects related: same class and handles, related children. -/
def objRel (r : Nat → Nat → Prop) (o2 o1 : Obj) : Prop :=
  o2.kind = o1.kind ∧ omRel r o2.services o1.services ∧
  omRel r o2.characteristics o1.characteristics ∧
  omRel r o2.descriptors o1.descriptors

/-- `r` is a simulation between two heaps. -/
def heapRel (r : Nat → Nat → Prop) (h2 h1 : List Obj) : Prop :=
  ∀ i j, r i j →
    match hget h2 i, hget h1 j with
    | some o2, some o1 => objRel r o2 o1
    | none, none => True
    | _, _ => False

/-- Relation on `this.devices` entries. -/
def devRel (r : Nat → Nat → Prop) : DevVal → DevVal → Prop
  | .path p2, .path p1 => p2 = p1
  | .obj i, .obj j => r i j
  | _, _ => False

/-- Two states related by the simulation `r` on all roots. -/
def stateRel (r : Nat → Nat → Prop) (s2 s1 : BluezState) : Prop :=
  s2.adapter_props = s1.adapter_props ∧ s2.adapter = s1.adapter ∧
  List.Forall₂ (fun a b => a.1 = b.1 ∧ devRel r a.2 b.2) s2.devices s1.devices ∧
  List.Forall₂ (fun a b => a.1 = b.1 ∧ r a.2 b.2) s2.pathMap s1.pathMap ∧
  heapRel r s2.heap s1.heap

/-- The simulation used for replays: identity on ids below the bound `b`
(avoiding the replacement id `m`), plus the pair relating the fresh id `m`
allocated by the replay to the original id `n` it replaces. -/
def repRel (b n m : Nat) : Nat → Nat → Prop := fun i j =>
  (i = j ∧ i < b ∧ i ≠ m) ∨ (i = m ∧ j = n)

/-- The object built by `new Descriptor(iface)` for a descriptor at `p`
(`Bluez.js` line 314: none of the three child maps is initialised). -/
def dscObj (p : String) : Obj :=
  { kind := .descriptor ⟨p, "org.bluez.GattDescriptor1"⟩ }

/-- The `characteristics` map the `if (this._path[path])` splice guard reads
for a new service or placeholder at `path` (`Bluez.js` lines 283, 297):
empty when no object is indexed there or the indexed object has no
`characteristics` field. -/
def spliceChars (h : List Obj) (pm : List (String × Nat)) (path : String) :
    List (String × Nat) :=
  match alookup path pm with
  | some pid =>
    match hget h pid with
    | some pobj => pobj.characteristics.getD []
    | none => []
  | none => []

/-- The `descriptors` map the splice guard reads for a new characteristic at
`path` (`Bluez.js` line 297). -/
def spliceDescs (h : List Obj) (pm : List (String × Nat)) (path : String) :
    List (String × Nat) :=
  match alookup path pm with
  | some pid =>
    match hget h pid with
    | some pobj => pobj.descriptors.getD []
    | none => []
  | none => []

/-- All ids of a child map below a bound. -/
def idsBelow (b : Nat) (m : Option (List (String × Nat))) : Bool :=
  (m.getD []).all fun kv => kv.2 < b

/-- All child ids of an object below a bound. -/
def wfObj (b : Nat) (o : Obj) : Bool :=
  idsBelow b o.services && idsBelow b o.characteristics && idsBelow b o.descriptors

/-- Well-formed state: every stored heap id is in range.  Every state
reachable from `init` through the source operations is well formed. -/
def wf (s : BluezState) : Bool :=
  s.devices.all (fun kv =>
    match kv.2 with
    | .obj i => decide (i < s.heap.length)
    | .path _ => true) &&
  s.pathMap.all (fun kv => decide (kv.2 < s.heap.length)) &&
  s.heap.all (wfObj s.heap.length)

/-! # Theorems -/

/-! ## Assoc-list and heap toolkit -/

theorem alookup_aset_self {α : Type} (k : String) (v : α) (l : List (String × α)) :
    alookup k (aset k v l) = some v := by
  induction l with
  | nil => simp [aset, alookup]
  | cons hd tl ih =>
    by_cases h : hd.1 = k
    · simp [aset, h, alookup]
    · simpa [aset, h, alookup] using ih

theorem alookup_aset_ne {α : Type} {k k' : String} (h : k ≠ k') (v : α)
    (l : List (String × α)) : alookup k (aset k' v l) = alookup k l := by
  induction l with
  | nil => simp [aset, alookup, Ne.symm h]
  | cons hd tl ih =>
    rcases hd with ⟨hk, hv⟩
    by_cases h1 : hk = k'
    · subst h1
      simp [aset, alookup, Ne.symm h]
    · rw [aset, if_neg h1]
      by_cases h2 : hk = k
      · rw [alookup, if_pos h2, alookup, if_pos h2]
      · rw [alookup, if_neg h2, alookup, if_neg h2, ih]

theorem alookup_adel_ne {α : Type} {k k' : String} (h : k ≠ k')
    (l : List (String × α)) : alookup k (adel k' l) = alookup k l := by
  induction l with
  | nil => simp [adel]
  | cons hd tl ih =>
    rcases hd with ⟨hk, hv⟩
    by_cases h1 : hk = k'
    · subst h1
      rw [adel, if_pos rfl, alookup, if_neg (Ne.symm h)]
    · rw [adel, if_neg h1]
      by_cases h2 : hk = k
      · rw [alookup, if_pos h2, alookup, if_pos h2]
      · rw [alookup, if_neg h2, alookup, if_neg h2, ih]

theorem hget_append_cons (l : List Obj) (a : Obj) (r : List Obj) :
    hget (l ++ a :: r) l.length = some a := by
  induction l with
  | nil => rfl
  | cons hd tl ih => exact ih

theorem hget_append_cons_one (l : List Obj) (a b : Obj) (r : List Obj) :
    hget (l ++ a :: b :: r) (l.length + 1) = some b := by
  have h := hget_append_cons (l ++ [a]) b r
  simpa [List.append_assoc] using h

theorem hget_append_of_lt {l : List Obj} {i : Nat} {x : Obj}
    (h : hget l i = some x) (r : List Obj) : hget (l ++ r) i = some x := by
  induction l generalizing i with
  | nil => simp [hget] at h
  | cons hd tl ih =>
    cases i with
    | zero => exact h
    | succ n => exact ih h

theorem lt_length_of_hget {l : List Obj} {i : Nat} {x : Obj}
    (h : hget l i = some x) : i < l.length := by
  induction l generalizing i with
  | nil => simp [hget] at h
  | cons hd tl ih =>
    cases i with
    | zero => exact Nat.succ_pos _
    | succ n => exact Nat.succ_lt_succ (ih h)

theorem hget_hset_ne {i j : Nat} (h : j ≠ i) (l : List Obj) (o : Obj) :
    hget (hset l i o) j = hget l j := by
  induction l generalizing i j with
  | nil => rfl
  | cons hd tl ih =>
    cases i with
    | zero =>
      cases j with
      | zero => exact absurd rfl h
      | succ m => rfl
    | succ n =>
      cases j with
      | zero => rfl
      | succ m => exact ih fun hh => h (congrArg Nat.succ hh)

theorem hget_hset_self {l : List Obj} {i : Nat} {x : Obj}
    (h : hget l i = some x) (o : Obj) : hget (hset l i o) i = some o := by
  induction l generalizing i with
  | nil => simp [hget] at h
  | cons hd tl ih =>
    cases i with
    | zero => rfl
    | succ n => exact ih h

theorem hset_append_of_lt {l : List Obj} {i : Nat} (h : i < l.length)
    (r : List Obj) (o : Obj) : hset (l ++ r) i o = hset l i o ++ r := by
  induction l generalizing i with
  | nil => simp at h
  | cons hd tl ih =>
    cases i with
    | zero => rfl
    | succ n =>
      have h' : n < tl.length := by
        simp only [List.length_cons] at h
        omega
      exact congrArg (hd :: ·) (ih h')

theorem hset_append_cons (l : List Obj) (a : Obj) (r : List Obj) (o : Obj) :
    hset (l ++ a :: r) l.length o = l ++ o :: r := by
  induction l with
  | nil => rfl
  | cons hd tl ih => exact congrArg (hd :: ·) ih

theorem hset_append_cons_one (l : List Obj) (a b : Obj) (r : List Obj) (o : Obj) :
    hset (l ++ a :: b :: r) (l.length + 1) o = l ++ a :: o :: r := by
  have h := hset_append_cons (l ++ [a]) b r o
  simpa [List.append_assoc] using h

theorem length_hset (l : List Obj) (i : Nat) (o : Obj) :
    (hset l i o).length = l.length := by
  simp [hset]

theorem hget_append_right (l r : List Obj) (i : Nat) :
    hget (l ++ r) (l.length + i) = hget r i := by
  induction l with
  | nil => simp [hget]
  | cons hd tl ih =>
    have h : tl.length + 1 + i = tl.length + i + 1 := by omega
    rw [List.cons_append, List.length_cons, h]
    exact ih

theorem hset_append_right (l r : List Obj) (i : Nat) (o : Obj) :
    hset (l ++ r) (l.length + i) o = l ++ hset r i o := by
  induction l with
  | nil => simp [hset]
  | cons hd tl ih =>
    have h : tl.length + 1 + i = tl.length + i + 1 := by omega
    rw [List.cons_append, List.length_cons, h]
    exact congrArg (hd :: ·) ih

/-! ## Effect lemmas for the resolver and the reconciler branches -/

theorem getDevice_of_obj (t : Transport) {s : BluezState} {a : String} {id : Nat}
    (hd : alookup (normalizeAddr a) s.devices = some (.obj id)) :
    getDevice t s a = (s, .ok id) := by
  simp [getDevice, hd]

theorem getDevice_of_none (t : Transport) {s : BluezState} {a : String}
    (hd : alookup (normalizeAddr a) s.devices = none) :
    getDevice t s a = (s, .error (.jsError "Device not found")) := by
  simp [getDevice, hd]

theorem getDevice_installs {t : Transport} {s : BluezState} {a p : String}
    (ht : ∀ q i, t q i = true)
    (hd : alookup (normalizeAddr a) s.devices = some (.path p)) :
    getDevice t s a =
      ({ s with
          heap := s.heap ++ [devObj p (replaceAll ':' '_' a)],
          devices := aset (normalizeAddr a) (.obj s.heap.length) s.devices,
          binds := ⟨"/org/bluez/hci0/dev_" ++ replaceAll ':' '_' a,
                    "org.freedesktop.DBus.Properties"⟩ ::
                   ⟨p, "org.bluez.Device1"⟩ :: s.binds },
       .ok s.heap.length) := by
  simp [getDevice, getInterface, hd, ht, devObj]

theorem addService_fresh {t : Transport} {s : BluezState} {path p : String}
    (props : PropBag) (ht : ∀ q i, t q i = true)
    (hpm : alookup path s.pathMap = none)
    (hd : alookup (normalizeAddr props.device) s.devices = some (.path p)) :
    addService t s path props =
      ({ s with
          heap := s.heap ++ [svcObj path,
            { devObj p (replaceAll ':' '_' props.device) with
                services := some [(props.uuid, s.heap.length)] }],
          devices := aset (normalizeAddr props.device) (.obj (s.heap.length + 1)) s.devices,
          pathMap := aset path s.heap.length s.pathMap,
          binds := ⟨"/org/bluez/hci0/dev_" ++ replaceAll ':' '_' props.device,
                    "org.freedesktop.DBus.Properties"⟩ ::
                   ⟨p, "org.bluez.Device1"⟩ ::
                   ⟨path, "org.bluez.GattService1"⟩ :: s.binds }, none) := by
  have hgd := @getDevice_installs t
      { s with heap := s.heap ++ [svcObj path],
               binds := ⟨path, "org.bluez.GattService1"⟩ :: s.binds }
      props.device p ht hd
  simp [svcObj, devObj] at hgd
  simp [addService, getInterface, ht, hpm, hget_append_cons_one,
    hset_append_cons_one, svcObj, devObj, aset, hgd]

theorem addService_splice {t : Transport} {s : BluezState} {path p : String}
    {pid : Nat} {pobj : Obj}
    (props : PropBag) (ht : ∀ q i, t q i = true)
    (hpm : alookup path s.pathMap = some pid)
    (hpo : hget s.heap pid = some pobj)
    (hd : alookup (normalizeAddr props.device) s.devices = some (.path p)) :
    addService t s path props =
      ({ s with
          heap := s.heap ++ [{ svcObj path with
              characteristics := some (pobj.characteristics.getD []) },
            { devObj p (replaceAll ':' '_' props.device) with
                services := some [(props.uuid, s.heap.length)] }],
          devices := aset (normalizeAddr props.device) (.obj (s.heap.length + 1)) s.devices,
          pathMap := aset path s.heap.length s.pathMap,
          binds := ⟨"/org/bluez/hci0/dev_" ++ replaceAll ':' '_' props.device,
                    "org.freedesktop.DBus.Properties"⟩ ::
                   ⟨p, "org.bluez.Device1"⟩ ::
                   ⟨path, "org.bluez.GattService1"⟩ :: s.binds }, none) := by
  have hgd := @getDevice_installs t
      { s with heap := s.heap ++ [svcObj path],
               binds := ⟨path, "org.bluez.GattService1"⟩ :: s.binds }
      props.device p ht hd
  simp [svcObj, devObj] at hgd
  have hpo2 := hget_append_of_lt hpo [svcObj path, devObj p (replaceAll ':' '_' props.device)]
  simp [svcObj, devObj] at hpo2
  simp [addService, getInterface, ht, hpm, modifyObj,
    hget_append_cons, hget_append_cons_one, hset_append_cons, hset_append_cons_one,
    svcObj, devObj, aset, hgd, hpo2]

theorem addCharacteristic_orphan {t : Transport} {s : BluezState} {cpath : String}
    (props : PropBag) (ht : ∀ q i, t q i = true)
    (hc : alookup cpath s.pathMap = none)
    (hs : alookup props.service s.pathMap = none) :
    addCharacteristic t s cpath props =
      ({ s with
          heap := s.heap ++ [chrObj cpath,
            { kind := .placeholder, characteristics := some [(props.uuid, s.heap.length)] }],
          pathMap := aset cpath s.heap.length
            (aset props.service (s.heap.length + 1) s.pathMap),
          binds := ⟨cpath, "org.freedesktop.DBus.Properties"⟩ ::
                   ⟨cpath, "org.bluez.GattCharacteristic1"⟩ :: s.binds }, none) := by
  simp [addCharacteristic, getInterface, ht, chrObj, hc, hs,
    alookup_aset_self, hget_append_cons_one, hset_append_cons_one, aset]

theorem addCharacteristic_under {t : Transport} {s : BluezState} {cpath : String}
    {sid : Nat} {sobj : Obj} {cs : List (String × Nat)}
    (props : PropBag) (ht : ∀ q i, t q i = true)
    (hc : alookup cpath s.pathMap = none)
    (hs : alookup props.service s.pathMap = some sid)
    (hso : hget s.heap sid = some sobj)
    (hsc : sobj.characteristics = some cs) :
    addCharacteristic t s cpath props =
      ({ s with
          heap := hset s.heap sid
              { sobj with characteristics := some (aset props.uuid s.heap.length cs) }
            ++ [chrObj cpath],
          pathMap := aset cpath s.heap.length s.pathMap,
          binds := ⟨cpath, "org.freedesktop.DBus.Properties"⟩ ::
                   ⟨cpath, "org.bluez.GattCharacteristic1"⟩ :: s.binds }, none) := by
  have hsid : sid < s.heap.length := lt_length_of_hget hso
  have hso2 := hget_append_of_lt hso [chrObj cpath]
  simp [chrObj] at hso2
  simp [addCharacteristic, getInterface, ht, chrObj, hc, hs, hsc,
    hset_append_of_lt hsid, aset, hso2]

/-! ### Single-capability notifications reduce to their branch -/

theorem onAdded_device_only (t : Transport) (s : BluezState) (path : String)
    (props : PropBag) :
    onInterfacesAdded t s path { device1 := some props } =
      ({ s with devices := aset props.address (.path path) s.devices,
                events := .device props.address props :: s.events }, none) := rfl

theorem onAdded_adapter_only (t : Transport) (s : BluezState) (path : String)
    (props : PropBag) :
    onInterfacesAdded t s path { adapter1 := some props } =
      ({ s with adapter_props := some props }, none) := rfl

theorem onAdded_service_only (t : Transport) (s : BluezState) (path : String)
    (props : PropBag) :
    onInterfacesAdded t s path { gattService1 := some props } =
      addService t s path props := by
  rcases h : addService t s path props with ⟨s3, e⟩
  cases e <;> simp [onInterfacesAdded, andThen, optStage, h]

theorem onAdded_characteristic_only (t : Transport) (s : BluezState) (path : String)
    (props : PropBag) :
    onInterfacesAdded t s path { gattCharacteristic1 := some props } =
      addCharacteristic t s path props := by
  rcases h : addCharacteristic t s path props with ⟨s4, e⟩
  cases e <;> simp [onInterfacesAdded, andThen, optStage, h]

theorem onAdded_descriptor_only (t : Transport) (s : BluezState) (path : String)
    (props : PropBag) :
    onInterfacesAdded t s path { gattDescriptor1 := some props } =
      addDescriptor t s path props := by
  rcases h : addDescriptor t s path props with ⟨s5, e⟩
  cases e <;> simp [onInterfacesAdded, andThen, optStage, h]

/-! ### The reconciler never emits `'device'` events outside the Device
branch: the event log is untouched by the resolver and the GATT branches -/

theorem getDevice_events (t : Transport) (s : BluezState) (a : String) :
    (getDevice t s a).1.events = s.events := by
  rcases h : alookup (normalizeAddr a) s.devices with _ | pv
  · simp [getDevice, h]
  · cases pv with
    | obj id => simp [getDevice, h]
    | path p =>
      cases h1 : t p "org.bluez.Device1" with
      | false => simp [getDevice, getInterface, h, h1]
      | true =>
        cases h2 : t ("/org/bluez/hci0/dev_" ++ replaceAll ':' '_' a)
            "org.freedesktop.DBus.Properties" with
        | false => simp [getDevice, getInterface, h, h1, h2]
        | true => simp [getDevice, getInterface, h, h1, h2]

theorem events_eq_of_getInterface {t : Transport} {s : BluezState} {p i : String}
    {s' : BluezState} {r : Except JsError IfaceHandle}
    (h : getInterface t s p i = (s', r)) : s'.events = s.events := by
  have hh : (getInterface t s p i).1.events = s.events := rfl
  rw [h] at hh
  exact hh

theorem events_eq_of_getDevice {t : Transport} {s : BluezState} {a : String}
    {s' : BluezState} {r : Except JsError Nat}
    (h : getDevice t s a = (s', r)) : s'.events = s.events := by
  have hh := getDevice_events t s a
  rw [h] at hh
  exact hh

theorem modifyObj_events (s : BluezState) (id : Nat) (f : Obj → Obj) :
    (modifyObj s id f).events = s.events := by
  unfold modifyObj
  rcases hget s.heap id <;> rfl

theorem addService_events (t : Transport) (s : BluezState) (path : String)
    (props : PropBag) : (addService t s path props).1.events = s.events := by
  unfold addService
  split
  next s1 e heq => exact events_eq_of_getInterface heq
  next s1 iface heq =>
    have he1 : s1.events = s.events := events_eq_of_getInterface heq
    dsimp only
    split
    next s3 e heq2 => exact (events_eq_of_getDevice heq2).trans he1
    next s3 did heq2 =>
      have he3 : s3.events = s.events := (events_eq_of_getDevice heq2).trans he1
      rcases hpm : alookup path s3.pathMap with _ | pid
      · simp only [hpm]
        rcases hdo : hget s3.heap did with _ | dobj
        · simpa [hdo] using he3
        · rcases hds : dobj.services with _ | svcs <;> simp [hdo, hds, he3]
      · simp only [hpm]
        rcases hpo : hget s3.heap pid with _ | pobj
        · simp only [hpo]
          rcases hdo : hget s3.heap did with _ | dobj
          · simpa [hdo] using he3
          · rcases hds : dobj.services with _ | svcs <;> simp [hdo, hds, he3]
        · simp only [hpo]
          have hme : (modifyObj s3 s1.heap.length fun o =>
              { o with characteristics := some (pobj.characteristics.getD []) }).events
                = s3.events := modifyObj_events _ _ _
          rcases hdo : hget (modifyObj s3 s1.heap.length fun o =>
              { o with characteristics := some (pobj.characteristics.getD []) }).heap did
            with _ | dobj
          · simpa [hdo, hme] using he3
          · rcases hds : dobj.services with _ | svcs <;> simp [hdo, hds, hme, he3]

theorem addCharacteristic_events (t : Transport) (s : BluezState) (path : String)
    (props : PropBag) : (addCharacteristic t s path props).1.events = s.events := by
  unfold addCharacteristic
  split
  next s1 e heq => exact events_eq_of_getInterface heq
  next s1 iface heq =>
    have he1 : s1.events = s.events := events_eq_of_getInterface heq
    split
    next s2 e heq2 => exact (events_eq_of_getInterface heq2).trans he1
    next s2 changed heq2 =>
      have he2 : s2.events = s.events := (events_eq_of_getInterface heq2).trans he1
      dsimp only
      rcases hcp : alookup path s2.pathMap with _ | pid <;> simp only [hcp]
      case none =>
        rcases hph : alookup props.service s2.pathMap with _ | pid2 <;> simp only [hph]
        case none =>
          simp only [alookup_aset_self, hget_append_cons]
          simp [he2]
        case some =>
          rcases hpo2 : hget (s2.heap ++
              [({ kind := .characteristic iface changed, descriptors := some [] } : Obj)]) pid2
            with _ | oobj <;> simp only [hpo2]
          case none => simp [he2]
          case some =>
            rcases hoc : oobj.characteristics with _ | cs <;> simp [hoc, he2]
      case some =>
        rcases hpo : hget (s2.heap ++
            [({ kind := .characteristic iface changed, descriptors := some [] } : Obj)]) pid
          with _ | pobj <;> simp only [hpo]
        case none =>
          rcases hph : alookup props.service s2.pathMap with _ | pid2 <;> simp only [hph]
          case none =>
            simp only [alookup_aset_self, hget_append_cons]
            simp [he2]
          case some =>
            rcases hpo2 : hget (s2.heap ++
                [({ kind := .characteristic iface changed, descriptors := some [] } : Obj)]) pid2
              with _ | oobj <;> simp only [hpo2]
            case none => simp [he2]
            case some =>
              rcases hoc : oobj.characteristics with _ | cs <;> simp [hoc, he2]
        case some =>
          simp only [modifyObj, hget_append_cons, length_hset]
          rcases hph : alookup props.service s2.pathMap with _ | pid2 <;> simp only [hph]
          case none =>
            simp [alookup_aset_self, hset_append_cons, hget_append_cons,
              hget_append_cons_one, he2]
          case some =>
            rcases hpo2 : hget (hset (s2.heap ++
                  [({ kind := .characteristic iface changed, descriptors := some [] } : Obj)])
                s2.heap.length
                { kind := .characteristic iface changed,
                  characteristics := none, services := none,
                  descriptors := some (pobj.descriptors.getD []) }) pid2
              with _ | oobj <;> simp only [hpo2]
            case none => simp [he2]
            case some =>
              rcases hoc : oobj.characteristics with _ | cs <;> simp [hoc, he2]

theorem addDescriptor_events (t : Transport) (s : BluezState) (path : String)
    (props : PropBag) : (addDescriptor t s path props).1.events = s.events := by
  unfold addDescriptor
  split
  next s1 e heq => exact events_eq_of_getInterface heq
  next s1 iface heq =>
    have he1 : s1.events = s.events := events_eq_of_getInterface heq
    dsimp only
    rcases hph : alookup props.characteristic s1.pathMap with _ | pid <;> simp only [hph]
    case none =>
      simp only [alookup_aset_self, hget_append_cons]
      simp [he1]
    case some =>
      rcases hpo : hget (s1.heap ++ [({ kind := .descriptor iface } : Obj)]) pid
        with _ | oobj <;> simp only [hpo]
      case none => simp [he1]
      case some =>
        rcases hod : oobj.descriptors with _ | ds <;> simp [hod, he1]

theorem andThen_events {r : BluezState × Option JsError}
    {f : BluezState → BluezState × Option JsError}
    (hf : ∀ s', (f s').1.events = s'.events) :
    (andThen r f).1.events = r.1.events := by
  rcases r with ⟨s', err⟩
  cases err <;> simp [andThen, hf]

theorem optStage_events {f : BluezState → PropBag → BluezState × Option JsError}
    (hf : ∀ s' p, (f s' p).1.events = s'.events) (o : Option PropBag)
    (s : BluezState) : (optStage f o s).1.events = s.events := by
  cases o <;> simp [optStage, hf]

/-- The complete event effect of one `InterfacesAdded` notification: exactly
one `'device'` event is prepended when the Device capability is named,
nothing otherwise. -/
theorem onInterfacesAdded_events (t : Transport) (s : BluezState) (path : String)
    (ifaces : AddedIfaces) :
    (onInterfacesAdded t s path ifaces).1.events =
      (match ifaces.device1 with
       | some props => Event.device props.address props :: s.events
       | none => s.events) := by
  have hchar : ∀ s' : BluezState,
      ((andThen (optStage (fun s'' props => addCharacteristic t s'' path props)
          ifaces.gattCharacteristic1 s') fun s4 =>
        optStage (fun s'' props => addDescriptor t s'' path props)
          ifaces.gattDescriptor1 s4).1.events) = s'.events := by
    intro s'
    exact (andThen_events fun s4 =>
        optStage_events (fun a b => addDescriptor_events t a path b) _ _).trans
      (optStage_events (fun a b => addCharacteristic_events t a path b) _ _)
  unfold onInterfacesAdded
  rcases ha : ifaces.adapter1 with _ | ap <;> rcases hd : ifaces.device1 with _ | dp <;>
    simp only [ha, hd] <;>
    exact (andThen_events hchar).trans
      (optStage_events (fun a b => addService_events t a path b) _ _)

/-! ## Simulation implies view equality -/

theorem map_eq_of_forall₂ {α β γ : Type} {f : α → γ} {g : β → γ}
    {l2 : List α} {l1 : List β} {R : α → β → Prop}
    (h : List.Forall₂ R l2 l1) (hfg : ∀ a b, R a b → f a = g b) :
    l2.map f = l1.map g := by
  induction h with
  | nil => rfl
  | cons hab _ ihl =>
    simp only [List.map_cons]
    rw [ihl, hfg _ _ hab]

theorem viewOm_eq_of_rel {r : Nat → Nat → Prop} {h2 h1 : List Obj} {d : Nat}
    (ih : ∀ i j, r i j → viewObj d h2 i = viewObj d h1 j)
    {m2 m1 : Option (List (String × Nat))} (hm : omRel r m2 m1) :
    m2.map (fun l => l.map fun kv => (kv.1, viewObj d h2 kv.2)) =
      m1.map (fun l => l.map fun kv => (kv.1, viewObj d h1 kv.2)) := by
  cases m2 with
  | none =>
    cases m1 with
    | none => rfl
    | some l1 => exact absurd hm (by simp [omRel])
  | some l2 =>
    cases m1 with
    | none => exact absurd hm (by simp [omRel])
    | some l1 =>
      exact congrArg some (map_eq_of_forall₂ hm fun a b hab =>
        congrArg₂ (fun x y => (x, y)) hab.1 (ih _ _ hab.2))

theorem viewObj_eq_of_heapRel {r : Nat → Nat → Prop} {h2 h1 : List Obj}
    (hh : heapRel r h2 h1) :
    ∀ (d : Nat) (i j : Nat), r i j → viewObj d h2 i = viewObj d h1 j := by
  intro d
  induction d with
  | zero => intro i j _; rfl
  | succ d ih =>
    intro i j hij
    have hcomp := hh i j hij
    rcases e2 : hget h2 i with _ | o2 <;> rcases e1 : hget h1 j with _ | o1 <;>
      rw [e2, e1] at hcomp <;> simp only [viewObj] <;> rw [e2, e1]
    · exact absurd hcomp not_false
    · exact absurd hcomp not_false
    · obtain ⟨hk, hs, hc, hd'⟩ := hcomp
      dsimp only
      rw [hk, viewOm_eq_of_rel ih hs, viewOm_eq_of_rel ih hc, viewOm_eq_of_rel ih hd']

theorem viewDev_eq_of_rel {r : Nat → Nat → Prop} {h2 h1 : List Obj} {d : Nat}
    (hobj : ∀ i j, r i j → viewObj d h2 i = viewObj d h1 j)
    {v2 v1 : DevVal} (hv : devRel r v2 v1) :
    viewDevVal d h2 v2 = viewDevVal d h1 v1 := by
  cases v2 <;> cases v1 <;> simp only [devRel] at hv
  · exact congrArg PureDev.path hv
  · exact congrArg PureDev.obj (hobj _ _ hv)

theorem viewState_eq_of_stateRel {r : Nat → Nat → Prop} {s2 s1 : BluezState}
    (h : stateRel r s2 s1) : ∀ d : Nat, viewState d s2 = viewState d s1 := by
  obtain ⟨hap, had, hdev, hpm, hh⟩ := h
  intro d
  have hobj := viewObj_eq_of_heapRel hh d
  have hdevs := map_eq_of_forall₂
    (f := fun kv : String × DevVal => (kv.1, viewDevVal d s2.heap kv.2))
    (g := fun kv : String × DevVal => (kv.1, viewDevVal d s1.heap kv.2))
    hdev (fun a b hab =>
      congrArg₂ (fun x y => (x, y)) hab.1 (viewDev_eq_of_rel hobj hab.2))
  have hpms := map_eq_of_forall₂
    (f := fun kv : String × Nat => (kv.1, viewObj d s2.heap kv.2))
    (g := fun kv : String × Nat => (kv.1, viewObj d s1.heap kv.2))
    hpm (fun a b hab =>
      congrArg₂ (fun x y => (x, y)) hab.1 (hobj _ _ hab.2))
  unfold viewState
  rw [hap, had, hdevs, hpms]

/-! ## Replay toolkit: reflexive simulations, in-place `aset`, bounds -/

theorem aset_aset_self {α : Type} (k : String) (v w : α) (l : List (String × α)) :
    aset k v (aset k w l) = aset k v l := by
  induction l with
  | nil => simp [aset]
  | cons hd tl ih =>
    rcases hd with ⟨hk, hv⟩
    by_cases h1 : hk = k
    · simp [aset, h1]
    · simp [aset, h1, ih]

theorem mem_aset {α : Type} {kv : String × α} {k : String} {v : α}
    {l : List (String × α)} (h : kv ∈ aset k v l) : kv = (k, v) ∨ kv ∈ l := by
  induction l with
  | nil =>
    simp [aset] at h
    exact Or.inl h
  | cons hd tl ih =>
    rcases hd with ⟨hk, hv2⟩
    by_cases h1 : hk = k
    · rw [aset, if_pos h1] at h
      rcases List.mem_cons.mp h with h2 | h2
      · exact Or.inl h2
      · exact Or.inr (List.mem_cons_of_mem _ h2)
    · rw [aset, if_neg h1] at h
      rcases List.mem_cons.mp h with h2 | h2
      · exact Or.inr (h2 ▸ List.mem_cons_self _ _)
      · rcases ih h2 with h3 | h3
        · exact Or.inl h3
        · exact Or.inr (List.mem_cons_of_mem _ h3)

theorem forall₂_refl_of_mem {α : Type} {R : α → α → Prop} {l : List α}
    (h : ∀ x ∈ l, R x x) : List.Forall₂ R l l := by
  induction l with
  | nil => exact List.Forall₂.nil
  | cons hd tl ih =>
    exact List.Forall₂.cons (h hd (by simp))
      (ih fun x hx => h x (by simp [hx]))

theorem forall₂_aset_present {α : Type} {R : (String × α) → (String × α) → Prop}
    {l : List (String × α)} {k : String} {n m : α}
    (hl : alookup k l = some n) (hR : ∀ kv ∈ l, R kv kv)
    (hp : R (k, m) (k, n)) : List.Forall₂ R (aset k m l) l := by
  induction l with
  | nil => simp [alookup] at hl
  | cons hd tl ih =>
    rcases hd with ⟨hk, hv⟩
    by_cases h1 : hk = k
    · subst h1
      rw [alookup, if_pos rfl] at hl
      rw [aset, if_pos rfl]
      injection hl with hl
      subst hl
      exact List.Forall₂.cons hp
        (forall₂_refl_of_mem fun x hx => hR x (by simp [hx]))
    · rw [alookup, if_neg h1] at hl
      rw [aset, if_neg h1]
      exact List.Forall₂.cons (hR (hk, hv) (by simp))
        (ih hl fun kv hkv => hR kv (by simp [hkv]))

theorem hget_of_lt {h : List Obj} {i : Nat} (hi : i < h.length) :
    ∃ o, hget h i = some o ∧ o ∈ h := by
  induction h generalizing i with
  | nil => simp at hi
  | cons hd tl ih =>
    cases i with
    | zero => exact ⟨hd, rfl, by simp⟩
    | succ n =>
      have hn : n < tl.length := by
        simp only [List.length_cons] at hi
        omega
      obtain ⟨o, h1, h2⟩ := ih hn
      exact ⟨o, h1, by simp [h2]⟩

theorem hget_none_of_le {h : List Obj} {i : Nat} (hi : h.length ≤ i) :
    hget h i = none := by
  induction h generalizing i with
  | nil => rfl
  | cons hd tl ih =>
    cases i with
    | zero => simp at hi
    | succ n =>
      refine ih ?_
      simp only [List.length_cons] at hi
      omega

theorem hget_append_lt {l : List Obj} {i : Nat} (hi : i < l.length)
    (r : List Obj) : hget (l ++ r) i = hget l i := by
  obtain ⟨o, h1, _⟩ := hget_of_lt hi
  rw [h1, hget_append_of_lt h1]

theorem hget_mem {h : List Obj} {i : Nat} {o : Obj}
    (hg : hget h i = some o) : o ∈ h := by
  obtain ⟨o2, h1, h2⟩ := hget_of_lt (lt_length_of_hget hg)
  rw [hg] at h1
  injection h1 with h1
  rw [h1]
  exact h2

theorem wf_unfold {s : BluezState} (hwf : wf s = true) :
    (∀ kv ∈ s.devices, ∀ i, kv.2 = DevVal.obj i → i < s.heap.length) ∧
    (∀ kv ∈ s.pathMap, kv.2 < s.heap.length) ∧
    (∀ o ∈ s.heap, wfObj s.heap.length o = true) := by
  rw [wf, Bool.and_eq_true, Bool.and_eq_true] at hwf
  obtain ⟨⟨h1, h2⟩, h3⟩ := hwf
  refine ⟨?_, ?_, ?_⟩
  · intro kv hkv i hi
    have hh := List.all_eq_true.mp h1 kv hkv
    rw [hi] at hh
    exact of_decide_eq_true hh
  · intro kv hkv
    exact of_decide_eq_true (List.all_eq_true.mp h2 kv hkv)
  · intro o ho
    exact List.all_eq_true.mp h3 o ho

theorem wfObj_unfold {b : Nat} {o : Obj} (h : wfObj b o = true) :
    idsBelow b o.services = true ∧ idsBelow b o.characteristics = true ∧
    idsBelow b o.descriptors = true := by
  rw [wfObj, Bool.and_eq_true, Bool.and_eq_true] at h
  exact ⟨h.1.1, h.1.2, h.2⟩

theorem idsBelow_mem {b : Nat} {l : List (String × Nat)}
    (h : idsBelow b (some l) = true) : ∀ kv ∈ l, kv.2 < b := by
  intro kv hkv
  rw [idsBelow, List.all_eq_true] at h
  exact of_decide_eq_true (h kv hkv)

theorem idsBelow_mono {b b' : Nat} (hbb : b ≤ b')
    {om : Option (List (String × Nat))} (h : idsBelow b om = true) :
    idsBelow b' om = true := by
  rw [idsBelow, List.all_eq_true] at h ⊢
  intro kv hkv
  exact decide_eq_true (Nat.lt_of_lt_of_le (of_decide_eq_true (h kv hkv)) hbb)

theorem wfObj_mono {b b' : Nat} (hbb : b ≤ b') {o : Obj}
    (h : wfObj b o = true) : wfObj b' o = true := by
  obtain ⟨h1, h2, h3⟩ := wfObj_unfold h
  rw [wfObj, Bool.and_eq_true, Bool.and_eq_true]
  exact ⟨⟨idsBelow_mono hbb h1, idsBelow_mono hbb h2⟩, idsBelow_mono hbb h3⟩

theorem omRel_refl_below {b n m : Nat} (hbm : b ≤ m)
    {om : Option (List (String × Nat))} (h : idsBelow b om = true) :
    omRel (repRel b n m) om om := by
  cases om with
  | none => trivial
  | some l =>
    refine forall₂_refl_of_mem fun kv hkv => ⟨rfl, Or.inl ⟨rfl, ?_, ?_⟩⟩
    · exact idsBelow_mem h kv hkv
    · exact Nat.ne_of_lt (Nat.lt_of_lt_of_le (idsBelow_mem h kv hkv) hbm)

theorem objRel_refl_below {b n m : Nat} (hbm : b ≤ m) {o : Obj}
    (h : wfObj b o = true) : objRel (repRel b n m) o o := by
  obtain ⟨h1, h2, h3⟩ := wfObj_unfold h
  exact ⟨rfl, omRel_refl_below hbm h1, omRel_refl_below hbm h2,
    omRel_refl_below hbm h3⟩

theorem devices_refl {r : Nat → Nat → Prop} {l : List (String × DevVal)}
    (h : ∀ kv ∈ l, ∀ i, kv.2 = DevVal.obj i → r i i) :
    List.Forall₂ (fun a c => a.1 = c.1 ∧ devRel r a.2 c.2) l l := by
  refine forall₂_refl_of_mem fun kv hkv => ⟨rfl, ?_⟩
  rcases hv : kv.2 with p | i
  · exact rfl
  · exact h kv hkv i hv

theorem pathMap_refl {r : Nat → Nat → Prop} {l : List (String × Nat)}
    (h : ∀ kv ∈ l, r kv.2 kv.2) :
    List.Forall₂ (fun a c => a.1 = c.1 ∧ r a.2 c.2) l l :=
  forall₂_refl_of_mem fun kv hkv => ⟨rfl, h kv hkv⟩

/-! ## Replay masters: the three ways a replayed state relates to the
once-applied state (identical entity fields, extra unreachable heap
garbage, or an in-place owner update plus one replacement object) -/

theorem viewState_eq_of_fields {s2 s1 : BluezState}
    (h1 : s2.adapter_props = s1.adapter_props) (h2 : s2.adapter = s1.adapter)
    (h3 : s2.devices = s1.devices) (h4 : s2.pathMap = s1.pathMap)
    (h5 : s2.heap = s1.heap) (d : Nat) : viewState d s2 = viewState d s1 := by
  unfold viewState
  rw [h1, h2, h3, h4, h5]

theorem viewState_garbage {s2 s1 : BluezState} (e : List Obj)
    (hh : s2.heap = s1.heap ++ e)
    (hap : s2.adapter_props = s1.adapter_props) (had : s2.adapter = s1.adapter)
    (hdev : s2.devices = s1.devices) (hpm : s2.pathMap = s1.pathMap)
    (hwf : wf s1 = true) (d : Nat) : viewState d s2 = viewState d s1 := by
  obtain ⟨hd, hp, hhp⟩ := wf_unfold hwf
  have hlen : s1.heap.length ≤ s2.heap.length := by
    rw [hh, List.length_append]
    exact Nat.le_add_right _ _
  apply viewState_eq_of_stateRel
    (r := repRel s1.heap.length s2.heap.length s2.heap.length)
  refine ⟨hap, had, ?_, ?_, ?_⟩
  · rw [hdev]
    refine devices_refl fun kv hkv i hi => Or.inl ⟨rfl, hd kv hkv i hi, ?_⟩
    exact Nat.ne_of_lt (Nat.lt_of_lt_of_le (hd kv hkv i hi) hlen)
  · rw [hpm]
    refine pathMap_refl fun kv hkv => Or.inl ⟨rfl, hp kv hkv, ?_⟩
    exact Nat.ne_of_lt (Nat.lt_of_lt_of_le (hp kv hkv) hlen)
  · intro i j hij
    rcases hij with ⟨rfl, hib, him⟩ | ⟨rfl, rfl⟩
    · obtain ⟨o, ho, hom⟩ := hget_of_lt hib
      have h2g : hget s2.heap i = some o := by
        rw [hh]
        exact hget_append_of_lt ho e
      rw [h2g, ho]
      exact objRel_refl_below hlen (hhp o hom)
    · rw [hget_none_of_le (Nat.le_refl _), hget_none_of_le hlen]
      trivial

theorem viewState_swap {s2 s1 : BluezState} (w n : Nat) (u2 u1 y : Obj)
    (hw : w < s1.heap.length) (hn : n < s1.heap.length) (hnw : n ≠ w)
    (hu1 : hget s1.heap w = some u1) (hy : hget s1.heap n = some y)
    (hh2 : s2.heap = hset s1.heap w u2 ++ [y])
    (hrelu : objRel (repRel s1.heap.length n s1.heap.length) u2 u1)
    (hwfall : ∀ i o, i < s1.heap.length → i ≠ w → hget s1.heap i = some o →
      wfObj s1.heap.length o = true)
    (hap : s2.adapter_props = s1.adapter_props) (had : s2.adapter = s1.adapter)
    (hdev : List.Forall₂ (fun a c => a.1 = c.1 ∧
      devRel (repRel s1.heap.length n s1.heap.length) a.2 c.2)
      s2.devices s1.devices)
    (hpm : List.Forall₂ (fun a c => a.1 = c.1 ∧
      repRel s1.heap.length n s1.heap.length a.2 c.2) s2.pathMap s1.pathMap)
    (d : Nat) : viewState d s2 = viewState d s1 := by
  apply viewState_eq_of_stateRel (r := repRel s1.heap.length n s1.heap.length)
  refine ⟨hap, had, hdev, hpm, ?_⟩
  intro i j hij
  rcases hij with ⟨rfl, hib, him⟩ | ⟨him, hjn⟩
  case h.inr.intro =>
    have h2g : hget s2.heap i = some y := by
      have hc := hget_append_cons (hset s1.heap w u2) y []
      rw [length_hset] at hc
      rw [hh2, him]
      exact hc
    have h1g : hget s1.heap j = some y := by
      rw [hjn]
      exact hy
    rw [h2g, h1g]
    exact objRel_refl_below (Nat.le_refl _) (hwfall n y hn hnw hy)
  · by_cases hiw : i = w
    · subst hiw
      have h2g : hget s2.heap i = some u2 := by
        rw [hh2]
        exact hget_append_of_lt (hget_hset_self hu1 u2) [y]
      rw [h2g, hu1]
      exact hrelu
    · obtain ⟨o, ho, _⟩ := hget_of_lt hib
      have h2g : hget s2.heap i = some o := by
        rw [hh2]
        refine hget_append_of_lt ?_ [y]
        rw [hget_hset_ne hiw]
        exact ho
      rw [h2g, ho]
      exact objRel_refl_below (Nat.le_refl _) (hwfall i o hib hiw ho)

/-! ## General effect lemmas: one branch application, every leaf -/

theorem spliceChars_bound {s : BluezState} (hwf : wf s = true) (path : String) :
    ∀ kv ∈ spliceChars s.heap s.pathMap path, kv.2 < s.heap.length := by
  intro kv hkv
  rw [spliceChars] at hkv
  split at hkv
  next pid hl =>
    split at hkv
    next pobj hg =>
      have hwo := (wf_unfold hwf).2.2 pobj (hget_mem hg)
      have hc := (wfObj_unfold hwo).2.1
      rcases hcc : pobj.characteristics with _ | l
      · rw [hcc] at hkv
        simp at hkv
      · rw [hcc] at hkv
        rw [hcc] at hc
        exact idsBelow_mem hc kv (by simpa using hkv)
    next => simp at hkv
  next => simp at hkv

theorem spliceDescs_bound {s : BluezState} (hwf : wf s = true) (path : String) :
    ∀ kv ∈ spliceDescs s.heap s.pathMap path, kv.2 < s.heap.length := by
  intro kv hkv
  rw [spliceDescs] at hkv
  split at hkv
  next pid hl =>
    split at hkv
    next pobj hg =>
      have hwo := (wf_unfold hwf).2.2 pobj (hget_mem hg)
      have hc := (wfObj_unfold hwo).2.2
      rcases hcc : pobj.descriptors with _ | l
      · rw [hcc] at hkv
        simp at hkv
      · rw [hcc] at hkv
        rw [hcc] at hc
        exact idsBelow_mem hc kv (by simpa using hkv)
    next => simp at hkv
  next => simp at hkv

theorem getDevice_installs_binds {t : Transport} {s : BluezState} {a p : String}
    (h1 : t p "org.bluez.Device1" = true)
    (h2 : t ("/org/bluez/hci0/dev_" ++ replaceAll ':' '_' a)
      "org.freedesktop.DBus.Properties" = true)
    (hd : alookup (normalizeAddr a) s.devices = some (.path p)) :
    getDevice t s a =
      ({ s with
          heap := s.heap ++ [devObj p (replaceAll ':' '_' a)],
          devices := aset (normalizeAddr a) (.obj s.heap.length) s.devices,
          binds := ⟨"/org/bluez/hci0/dev_" ++ replaceAll ':' '_' a,
                    "org.freedesktop.DBus.Properties"⟩ ::
                   ⟨p, "org.bluez.Device1"⟩ :: s.binds },
       .ok s.heap.length) := by
  simp [getDevice, getInterface, hd, h1, h2, devObj]

theorem addService_bindfail {t : Transport} {s : BluezState} {path : String}
    (props : PropBag) (hb : t path "org.bluez.GattService1" = false) :
    addService t s path props =
      ({ s with binds := ⟨path, "org.bluez.GattService1"⟩ :: s.binds },
       some (.transport path "org.bluez.GattService1")) := by
  simp [addService, getInterface, hb]

theorem addService_devnone {t : Transport} {s : BluezState} {path : String}
    (props : PropBag) (hb : t path "org.bluez.GattService1" = true)
    (hd : alookup (normalizeAddr props.device) s.devices = none) :
    addService t s path props =
      ({ s with
          heap := s.heap ++ [svcObj path],
          binds := ⟨path, "org.bluez.GattService1"⟩ :: s.binds },
       some (.jsError "Device not found")) := by
  simp [addService, getInterface, hb, getDevice, hd, svcObj]

theorem addService_dev_bindfail {t : Transport} {s : BluezState} {path p : String}
    (props : PropBag) (hb : t path "org.bluez.GattService1" = true)
    (hd : alookup (normalizeAddr props.device) s.devices = some (.path p))
    (h1 : t p "org.bluez.Device1" = false) :
    addService t s path props =
      ({ s with
          heap := s.heap ++ [svcObj path],
          binds := ⟨p, "org.bluez.Device1"⟩ ::
                   ⟨path, "org.bluez.GattService1"⟩ :: s.binds },
       some (.transport p "org.bluez.Device1")) := by
  simp [addService, getInterface, hb, getDevice, hd, h1, svcObj]

theorem addService_props_bindfail {t : Transport} {s : BluezState} {path p : String}
    (props : PropBag) (hb : t path "org.bluez.GattService1" = true)
    (hd : alookup (normalizeAddr props.device) s.devices = some (.path p))
    (h1 : t p "org.bluez.Device1" = true)
    (h2 : t ("/org/bluez/hci0/dev_" ++ replaceAll ':' '_' props.device)
      "org.freedesktop.DBus.Properties" = false) :
    addService t s path props =
      ({ s with
          heap := s.heap ++ [svcObj path],
          binds := ⟨"/org/bluez/hci0/dev_" ++ replaceAll ':' '_' props.device,
                    "org.freedesktop.DBus.Properties"⟩ ::
                   ⟨p, "org.bluez.Device1"⟩ ::
                   ⟨path, "org.bluez.GattService1"⟩ :: s.binds },
       some (.transport ("/org/bluez/hci0/dev_" ++ replaceAll ':' '_' props.device)
         "org.freedesktop.DBus.Properties")) := by
  simp [addService, getInterface, hb, getDevice, hd, h1, h2, svcObj]

theorem addService_obj_ok {t : Transport} {s : BluezState} {path : String}
    {did : Nat} {dobj : Obj} {svcs : List (String × Nat)}
    (props : PropBag) (hb : t path "org.bluez.GattService1" = true)
    (hd : alookup (normalizeAddr props.device) s.devices = some (.obj did))
    (hdo : hget s.heap did = some dobj)
    (hsv : dobj.services = some svcs)
    (hpid : ∀ pid, alookup path s.pathMap = some pid → pid < s.heap.length) :
    addService t s path props =
      ({ s with
          heap := hset s.heap did
              { dobj with services := some (aset props.uuid s.heap.length svcs) }
            ++ [{ svcObj path with
                  characteristics := some (spliceChars s.heap s.pathMap path) }],
          pathMap := aset path s.heap.length s.pathMap,
          binds := ⟨path, "org.bluez.GattService1"⟩ :: s.binds }, none) := by
  have hdid : did < s.heap.length := lt_length_of_hget hdo
  rcases hpm : alookup path s.pathMap with _ | pid
  · simp [addService, getInterface, hb, getDevice, hd, hpm, spliceChars,
      hget_append_of_lt hdo, hsv, hset_append_of_lt hdid, svcObj]
  · have hpl : pid < s.heap.length := hpid pid hpm
    obtain ⟨pobj, hpo, _⟩ := hget_of_lt hpl
    simp [addService, getInterface, hb, getDevice, hd, hpm, spliceChars,
      hget_append_of_lt hdo, hget_append_of_lt hpo, hpo, hsv,
      hset_append_of_lt hdid, svcObj, modifyObj, hget_append_cons,
      hset_append_cons]

theorem addService_obj_typeerr {t : Transport} {s : BluezState} {path : String}
    {did : Nat} {dobj : Obj}
    (props : PropBag) (hb : t path "org.bluez.GattService1" = true)
    (hd : alookup (normalizeAddr props.device) s.devices = some (.obj did))
    (hdo : hget s.heap did = some dobj)
    (hsv : dobj.services = none)
    (hpid : ∀ pid, alookup path s.pathMap = some pid → pid < s.heap.length) :
    addService t s path props =
      ({ s with
          heap := s.heap ++ [{ svcObj path with
            characteristics := some (spliceChars s.heap s.pathMap path) }],
          binds := ⟨path, "org.bluez.GattService1"⟩ :: s.binds },
       some (.typeError "Cannot set properties of undefined")) := by
  rcases hpm : alookup path s.pathMap with _ | pid
  · simp [addService, getInterface, hb, getDevice, hd, hpm, spliceChars,
      hget_append_of_lt hdo, hsv, svcObj]
  · have hpl : pid < s.heap.length := hpid pid hpm
    obtain ⟨pobj, hpo, _⟩ := hget_of_lt hpl
    simp [addService, getInterface, hb, getDevice, hd, hpm, spliceChars,
      hget_append_of_lt hdo, hget_append_of_lt hpo, hpo, hsv, svcObj,
      modifyObj, hget_append_cons, hset_append_cons]

theorem addService_path_ok {t : Transport} {s : BluezState} {path p : String}
    (props : PropBag) (hb : t path "org.bluez.GattService1" = true)
    (hd : alookup (normalizeAddr props.device) s.devices = some (.path p))
    (h1 : t p "org.bluez.Device1" = true)
    (h2 : t ("/org/bluez/hci0/dev_" ++ replaceAll ':' '_' props.device)
      "org.freedesktop.DBus.Properties" = true)
    (hpid : ∀ pid, alookup path s.pathMap = some pid → pid < s.heap.length) :
    addService t s path props =
      ({ s with
          heap := s.heap ++ [{ svcObj path with
              characteristics := some (spliceChars s.heap s.pathMap path) },
            { devObj p (replaceAll ':' '_' props.device) with
                services := some [(props.uuid, s.heap.length)] }],
          devices := aset (normalizeAddr props.device)
            (.obj (s.heap.length + 1)) s.devices,
          pathMap := aset path s.heap.length s.pathMap,
          binds := ⟨"/org/bluez/hci0/dev_" ++ replaceAll ':' '_' props.device,
                    "org.freedesktop.DBus.Properties"⟩ ::
                   ⟨p, "org.bluez.Device1"⟩ ::
                   ⟨path, "org.bluez.GattService1"⟩ :: s.binds }, none) := by
  rcases hpm : alookup path s.pathMap with _ | pid
  · have hgd := @getDevice_installs_binds t
        { s with heap := s.heap ++ [svcObj path],
                 binds := ⟨path, "org.bluez.GattService1"⟩ :: s.binds }
        props.device p h1 h2 hd
    simp [svcObj, devObj] at hgd
    simp [addService, getInterface, hb, hpm, spliceChars, hgd, svcObj, devObj,
      hget_append_cons_one, hset_append_cons_one, aset]
  · have hpl : pid < s.heap.length := hpid pid hpm
    obtain ⟨pobj, hpo, _⟩ := hget_of_lt hpl
    have hgd := @getDevice_installs_binds t
        { s with heap := s.heap ++ [svcObj path],
                 binds := ⟨path, "org.bluez.GattService1"⟩ :: s.binds }
        props.device p h1 h2 hd
    simp [svcObj, devObj] at hgd
    simp [addService, getInterface, hb, hpm, spliceChars, hpo, hgd, svcObj,
      devObj, modifyObj, hget_append_cons, hget_append_of_lt hpo,
      hset_append_cons, hget_append_cons_one, hset_append_cons_one, aset]

theorem addCharacteristic_bindfail1 {t : Transport} {s : BluezState}
    {path : String} (props : PropBag)
    (hb : t path "org.bluez.GattCharacteristic1" = false) :
    addCharacteristic t s path props =
      ({ s with binds := ⟨path, "org.bluez.GattCharacteristic1"⟩ :: s.binds },
       some (.transport path "org.bluez.GattCharacteristic1")) := by
  simp [addCharacteristic, getInterface, hb]

theorem addCharacteristic_bindfail2 {t : Transport} {s : BluezState}
    {path : String} (props : PropBag)
    (hb1 : t path "org.bluez.GattCharacteristic1" = true)
    (hb2 : t path "org.freedesktop.DBus.Properties" = false) :
    addCharacteristic t s path props =
      ({ s with binds := ⟨path, "org.freedesktop.DBus.Properties"⟩ ::
          ⟨path, "org.bluez.GattCharacteristic1"⟩ :: s.binds },
       some (.transport path "org.freedesktop.DBus.Properties")) := by
  simp [addCharacteristic, getInterface, hb1, hb2]

theorem addCharacteristic_owner_typeerr {t : Transport} {s : BluezState}
    {path : String} {oid : Nat} {oobj : Obj}
    (props : PropBag)
    (hb1 : t path "org.bluez.GattCharacteristic1" = true)
    (hb2 : t path "org.freedesktop.DBus.Properties" = true)
    (ho : alookup props.service s.pathMap = some oid)
    (hoo : hget s.heap oid = some oobj)
    (hoc : oobj.characteristics = none)
    (hpid : ∀ pid, alookup path s.pathMap = some pid → pid < s.heap.length) :
    addCharacteristic t s path props =
      ({ s with
          heap := s.heap ++ [{ chrObj path with
            descriptors := some (spliceDescs s.heap s.pathMap path) }],
          binds := ⟨path, "org.freedesktop.DBus.Properties"⟩ ::
                   ⟨path, "org.bluez.GattCharacteristic1"⟩ :: s.binds },
       some (.typeError "Cannot set properties of undefined")) := by
  rcases hpm : alookup path s.pathMap with _ | pid
  · simp [addCharacteristic, getInterface, hb1, hb2, hpm, ho, spliceDescs,
      hget_append_of_lt hoo, hoc, chrObj]
  · have hpl : pid < s.heap.length := hpid pid hpm
    obtain ⟨pobj, hpo, _⟩ := hget_of_lt hpl
    simp [addCharacteristic, getInterface, hb1, hb2, hpm, ho, spliceDescs,
      hget_append_of_lt hoo, hget_append_of_lt hpo, hpo, hoc, chrObj,
      modifyObj, hget_append_cons, hset_append_cons]

theorem addCharacteristic_owner_ok {t : Transport} {s : BluezState}
    {path : String} {oid : Nat} {oobj : Obj} {cs : List (String × Nat)}
    (props : PropBag)
    (hb1 : t path "org.bluez.GattCharacteristic1" = true)
    (hb2 : t path "org.freedesktop.DBus.Properties" = true)
    (ho : alookup props.service s.pathMap = some oid)
    (hoo : hget s.heap oid = some oobj)
    (hoc : oobj.characteristics = some cs)
    (hpid : ∀ pid, alookup path s.pathMap = some pid → pid < s.heap.length) :
    addCharacteristic t s path props =
      ({ s with
          heap := hset s.heap oid
              { oobj with
                  characteristics := some (aset props.uuid s.heap.length cs) }
            ++ [{ chrObj path with
                  descriptors := some (spliceDescs s.heap s.pathMap path) }],
          pathMap := aset path s.heap.length s.pathMap,
          binds := ⟨path, "org.freedesktop.DBus.Properties"⟩ ::
                   ⟨path, "org.bluez.GattCharacteristic1"⟩ :: s.binds },
       none) := by
  have hoid : oid < s.heap.length := lt_length_of_hget hoo
  rcases hpm : alookup path s.pathMap with _ | pid
  · simp [addCharacteristic, getInterface, hb1, hb2, hpm, ho, spliceDescs,
      hget_append_of_lt hoo, hoc, hset_append_of_lt hoid, chrObj]
  · have hpl : pid < s.heap.length := hpid pid hpm
    obtain ⟨pobj, hpo, _⟩ := hget_of_lt hpl
    simp [addCharacteristic, getInterface, hb1, hb2, hpm, ho, spliceDescs,
      hget_append_of_lt hoo, hget_append_of_lt hpo, hpo, hoc,
      hset_append_of_lt hoid, chrObj, modifyObj, hget_append_cons,
      hset_append_cons]

theorem addCharacteristic_owner_none {t : Transport} {s : BluezState}
    {path : String} (props : PropBag)
    (hb1 : t path "org.bluez.GattCharacteristic1" = true)
    (hb2 : t path "org.freedesktop.DBus.Properties" = true)
    (ho : alookup props.service s.pathMap = none)
    (hpid : ∀ pid, alookup path s.pathMap = some pid → pid < s.heap.length) :
    addCharacteristic t s path props =
      ({ s with
          heap := s.heap ++ [{ chrObj path with
              descriptors := some (spliceDescs s.heap s.pathMap path) },
            { kind := .placeholder,
              characteristics := some [(props.uuid, s.heap.length)] }],
          pathMap := aset path s.heap.length
            (aset props.service (s.heap.length + 1) s.pathMap),
          binds := ⟨path, "org.freedesktop.DBus.Properties"⟩ ::
                   ⟨path, "org.bluez.GattCharacteristic1"⟩ :: s.binds },
       none) := by
  rcases hpm : alookup path s.pathMap with _ | pid
  · simp [addCharacteristic, getInterface, hb1, hb2, hpm, ho, spliceDescs,
      alookup_aset_self, hget_append_cons_one, hset_append_cons_one, chrObj,
      aset]
  · have hpl : pid < s.heap.length := hpid pid hpm
    obtain ⟨pobj, hpo, _⟩ := hget_of_lt hpl
    simp [addCharacteristic, getInterface, hb1, hb2, hpm, ho, spliceDescs,
      hget_append_of_lt hpo, hpo, alookup_aset_self, hget_append_cons,
      hget_append_cons_one, hset_append_cons_one, chrObj, modifyObj,
      hset_append_cons, aset]

theorem addDescriptor_bindfail {t : Transport} {s : BluezState}
    {path : String} (props : PropBag)
    (hb : t path "org.bluez.GattDescriptor1" = false) :
    addDescriptor t s path props =
      ({ s with binds := ⟨path, "org.bluez.GattDescriptor1"⟩ :: s.binds },
       some (.transport path "org.bluez.GattDescriptor1")) := by
  simp [addDescriptor, getInterface, hb]

theorem addDescriptor_owner_typeerr {t : Transport} {s : BluezState}
    {path : String} {oid : Nat} {oobj : Obj}
    (props : PropBag) (hb : t path "org.bluez.GattDescriptor1" = true)
    (ho : alookup props.characteristic s.pathMap = some oid)
    (hoo : hget s.heap oid = some oobj)
    (hod : oobj.descriptors = none) :
    addDescriptor t s path props =
      ({ s with
          heap := s.heap ++ [dscObj path],
          binds := ⟨path, "org.bluez.GattDescriptor1"⟩ :: s.binds },
       some (.typeError "Cannot set properties of undefined")) := by
  simp [addDescriptor, getInterface, hb, ho, hget_append_of_lt hoo, hod,
    dscObj]

theorem addDescriptor_owner_ok {t : Transport} {s : BluezState}
    {path : String} {oid : Nat} {oobj : Obj} {ds : List (String × Nat)}
    (props : PropBag) (hb : t path "org.bluez.GattDescriptor1" = true)
    (ho : alookup props.characteristic s.pathMap = some oid)
    (hoo : hget s.heap oid = some oobj)
    (hod : oobj.descriptors = some ds) :
    addDescriptor t s path props =
      ({ s with
          heap := hset s.heap oid
              { oobj with
                  descriptors := some (aset props.uuid s.heap.length ds) }
            ++ [dscObj path],
          binds := ⟨path, "org.bluez.GattDescriptor1"⟩ :: s.binds },
       none) := by
  have hoid : oid < s.heap.length := lt_length_of_hget hoo
  simp [addDescriptor, getInterface, hb, ho, hget_append_of_lt hoo, hod,
    hset_append_of_lt hoid, dscObj]

theorem addDescriptor_owner_none {t : Transport} {s : BluezState}
    {path : String} (props : PropBag)
    (hb : t path "org.bluez.GattDescriptor1" = true)
    (ho : alookup props.characteristic s.pathMap = none) :
    addDescriptor t s path props =
      ({ s with
          heap := s.heap ++ [dscObj path,
            { kind := .placeholder,
              descriptors := some [(props.uuid, s.heap.length)] }],
          pathMap := aset props.characteristic (s.heap.length + 1) s.pathMap,
          binds := ⟨path, "org.bluez.GattDescriptor1"⟩ :: s.binds },
       none) := by
  simp [addDescriptor, getInterface, hb, ho, alookup_aset_self,
    hget_append_cons_one, hset_append_cons_one, dscObj, aset]

/-! ## Replaying a single-capability notification: per-branch analyses -/

theorem alookup_mem {α : Type} {k : String} {v : α} {l : List (String × α)}
    (h : alookup k l = some v) : (k, v) ∈ l := by
  induction l with
  | nil => simp [alookup] at h
  | cons hd tl ih =>
    rcases hd with ⟨hk, hv⟩
    by_cases h1 : hk = k
    · subst h1
      rw [alookup, if_pos rfl] at h
      injection h with h
      subst h
      exact List.mem_cons_self _ _
    · rw [alookup, if_neg h1] at h
      exact List.mem_cons_of_mem _ (ih h)

theorem idsBelow_of_mem {b : Nat} {l : List (String × Nat)}
    (h : ∀ kv ∈ l, kv.2 < b) : idsBelow b (some l) = true := by
  rw [idsBelow, List.all_eq_true]
  intro kv hkv
  exact decide_eq_true (h kv (by simpa using hkv))

theorem wf_parts {s1 : BluezState}
    (h1 : ∀ kv ∈ s1.devices, ∀ i, kv.2 = DevVal.obj i → i < s1.heap.length)
    (h2 : ∀ kv ∈ s1.pathMap, kv.2 < s1.heap.length)
    (h3 : ∀ o ∈ s1.heap, wfObj s1.heap.length o = true) : wf s1 = true := by
  rw [wf, Bool.and_eq_true, Bool.and_eq_true, List.all_eq_true,
    List.all_eq_true, List.all_eq_true]
  refine ⟨⟨?_, ?_⟩, ?_⟩
  · intro kv hkv
    rcases hv : kv.2 with p | i
    · rfl
    · exact decide_eq_true (h1 kv hkv i hv)
  · intro kv hkv
    exact decide_eq_true (h2 kv hkv)
  · intro o ho
    exact h3 o ho

theorem wf_extend_roots {s s1 : BluezState} (hwf : wf s = true)
    (hdev : s1.devices = s.devices) (hpm : s1.pathMap = s.pathMap)
    {e : List Obj} (hh : s1.heap = s.heap ++ e)
    (he : ∀ o ∈ e, wfObj (s.heap.length + e.length) o = true) :
    wf s1 = true := by
  obtain ⟨h1, h2, h3⟩ := wf_unfold hwf
  have hlen : s1.heap.length = s.heap.length + e.length := by
    rw [hh, List.length_append]
  apply wf_parts
  · intro kv hkv i hv
    rw [hdev] at hkv
    rw [hlen]
    exact Nat.lt_of_lt_of_le (h1 kv hkv i hv) (Nat.le_add_right _ _)
  · intro kv hkv
    rw [hpm] at hkv
    rw [hlen]
    exact Nat.lt_of_lt_of_le (h2 kv hkv) (Nat.le_add_right _ _)
  · intro o ho
    rw [hh] at ho
    rw [hlen]
    rcases List.mem_append.mp ho with h | h
    · exact wfObj_mono (Nat.le_add_right _ _) (h3 o h)
    · exact he o h

theorem mem_hset {l : List Obj} {i : Nat} {o x : Obj} (h : x ∈ hset l i o) :
    x = o ∨ x ∈ l := by
  induction l generalizing i with
  | nil => simp [hset] at h
  | cons hd tl ih =>
    cases i with
    | zero =>
      rcases List.mem_cons.mp h with h2 | h2
      · exact Or.inl h2
      · exact Or.inr (List.mem_cons_of_mem _ h2)
    | succ n =>
      rcases List.mem_cons.mp h with h2 | h2
      · exact Or.inr (h2 ▸ List.mem_cons_self _ _)
      · rcases ih h2 with h3 | h3
        · exact Or.inl h3
        · exact Or.inr (List.mem_cons_of_mem _ h3)

theorem replay_descriptor (t : Transport) (s : BluezState) (path : String)
    (props : PropBag) (hwf : wf s = true) (d : Nat) :
    viewState d (addDescriptor t (addDescriptor t s path props).1 path props).1 =
    viewState d (addDescriptor t s path props).1 := by
  obtain ⟨hwd, hwp, hwh⟩ := wf_unfold hwf
  by_cases hb : t path "org.bluez.GattDescriptor1" = true
  case neg =>
    rw [Bool.not_eq_true] at hb
    have h1 := addDescriptor_bindfail (t := t) (s := s) props hb
    have e1 : (addDescriptor t s path props).1 =
        { s with binds := ⟨path, "org.bluez.GattDescriptor1"⟩ :: s.binds } := by
      rw [h1]
    have h2 := addDescriptor_bindfail
      (s := { s with binds := ⟨path, "org.bluez.GattDescriptor1"⟩ :: s.binds })
      props hb
    rw [e1, h2]
    exact viewState_eq_of_fields rfl rfl rfl rfl rfl d
  case pos =>
    rcases ho : alookup props.characteristic s.pathMap with _ | oid
    · -- no owner yet: a placeholder is created, then the replay updates it
      have h1 := addDescriptor_owner_none props hb ho
      have e1 : (addDescriptor t s path props).1 =
          { s with
              heap := s.heap ++ [dscObj path,
                { kind := .placeholder,
                  descriptors := some [(props.uuid, s.heap.length)] }],
              pathMap := aset props.characteristic (s.heap.length + 1) s.pathMap,
              binds := ⟨path, "org.bluez.GattDescriptor1"⟩ :: s.binds } := by
        rw [h1]
      have hLp : (addDescriptor t s path props).1.heap.length =
          s.heap.length + 2 := by
        rw [e1]
        simp
      have h2 := addDescriptor_owner_ok
        (s := { s with
            heap := s.heap ++ [dscObj path,
              { kind := .placeholder,
                descriptors := some [(props.uuid, s.heap.length)] }],
            pathMap := aset props.characteristic (s.heap.length + 1) s.pathMap,
            binds := ⟨path, "org.bluez.GattDescriptor1"⟩ :: s.binds })
        props hb (alookup_aset_self _ _ _)
        (hget_append_cons_one s.heap (dscObj path) _ []) rfl
      rw [e1] at hLp
      rw [e1, h2]
      refine viewState_swap ?w1 ?n1 ?a1 ?c1 ?y1 ?hw1 ?hn1 ?hnw1 ?hu11 ?hy1
        ?hh1 ?hrel1 ?hall1 ?hap1 ?had1 ?hdev1 ?hpm1 d
      case hu11 => exact hget_append_cons_one s.heap (dscObj path) _ []
      case hy1 => exact hget_append_cons s.heap (dscObj path) _
      case hh1 => exact rfl
      case hap1 => exact rfl
      case had1 => exact rfl
      case hw1 =>
        rw [hLp]
        omega
      case hn1 =>
        rw [hLp]
        omega
      case hnw1 => omega
      case hrel1 =>
        -- the updated placeholder is related to the original one
        refine ⟨rfl, trivial, trivial, ?_⟩
        apply forall₂_aset_present
        · exact alookup_aset_self props.uuid s.heap.length []
        · intro kv hkv
          rw [List.mem_singleton] at hkv
          subst hkv
          refine ⟨rfl, Or.inl ⟨rfl, ?_, ?_⟩⟩
          · rw [hLp]
            omega
          · rw [hLp]
            omega
        · exact ⟨rfl, Or.inr ⟨rfl, rfl⟩⟩
      case hall1 =>
        -- every untouched object keeps its bounds
        intro i o hib hiw hgo
        rw [hLp] at hib
        rw [hLp]
        by_cases hin : i = s.heap.length
        · subst hin
          rw [hget_append_cons s.heap (dscObj path) _] at hgo
          injection hgo with hgo
          subst hgo
          rfl
        · have hi : i < s.heap.length := by omega
          rw [hget_append_lt hi] at hgo
          exact wfObj_mono (by omega) (hwh o (hget_mem hgo))
      case hdev1 =>
        refine devices_refl (l := s.devices) fun kv hkv i hv =>
          Or.inl ⟨rfl, ?_, ?_⟩
        · rw [hLp]
          have := hwd kv hkv i hv
          omega
        · rw [hLp]
          have := hwd kv hkv i hv
          omega
      case hpm1 =>
        refine pathMap_refl
          (l := aset props.characteristic (s.heap.length + 1) s.pathMap)
          fun kv hkv => ?_
        rcases mem_aset hkv with h | h
        · rw [h]
          refine Or.inl ⟨rfl, ?_, ?_⟩
          · rw [hLp]
            omega
          · rw [hLp]
            omega
        · have := hwp kv h
          refine Or.inl ⟨rfl, ?_, ?_⟩
          · rw [hLp]
            omega
          · rw [hLp]
            omega
    · -- owner already indexed
      have hoid : oid < s.heap.length := hwp _ (alookup_mem ho)
      obtain ⟨oobj, hoo, hmo⟩ := hget_of_lt hoid
      rcases hds : oobj.descriptors with _ | ds
      · -- the owner has no descriptor map: both applications throw,
        -- leaving one garbage object each
        have h1 := addDescriptor_owner_typeerr props hb ho hoo hds
        have e1 : (addDescriptor t s path props).1 =
            { s with
                heap := s.heap ++ [dscObj path],
                binds := ⟨path, "org.bluez.GattDescriptor1"⟩ :: s.binds } := by
          rw [h1]
        have h2 := addDescriptor_owner_typeerr
          (s := { s with
              heap := s.heap ++ [dscObj path],
              binds := ⟨path, "org.bluez.GattDescriptor1"⟩ :: s.binds })
          props hb ho (hget_append_of_lt hoo [dscObj path]) hds
        rw [e1, h2]
        refine viewState_garbage ?ge ?gh ?gap ?gad ?gdev ?gpm ?gwf d
        case gh => exact rfl
        case gap => exact rfl
        case gad => exact rfl
        case gdev => exact rfl
        case gpm => exact rfl
        case gwf =>
          refine wf_extend_roots hwf rfl rfl rfl ?_
          intro o ho2
          rw [List.mem_singleton] at ho2
          subst ho2
          rfl
      · -- success: the replay re-asets the same UUID in the owner and
        -- replaces the descriptor object by an identical fresh one
        have h1 := addDescriptor_owner_ok props hb ho hoo hds
        have e1 : (addDescriptor t s path props).1 =
            { s with
                heap := hset s.heap oid
                    { oobj with
                        descriptors :=
                          some (aset props.uuid s.heap.length ds) }
                  ++ [dscObj path],
                binds := ⟨path, "org.bluez.GattDescriptor1"⟩ :: s.binds } := by
          rw [h1]
        have hLp : (addDescriptor t s path props).1.heap.length =
            s.heap.length + 1 := by
          rw [e1]
          simp [length_hset]
        have h2 := addDescriptor_owner_ok
          (s := { s with
              heap := hset s.heap oid
                  { oobj with
                      descriptors :=
                        some (aset props.uuid s.heap.length ds) }
                ++ [dscObj path],
              binds := ⟨path, "org.bluez.GattDescriptor1"⟩ :: s.binds })
          props hb ho
          (hget_append_of_lt (hget_hset_self hoo _) [dscObj path]) rfl
        rw [e1] at hLp
        rw [e1, h2]
        have hwo := wfObj_unfold (hwh oobj hmo)
        have hdsb : ∀ kv ∈ ds, kv.2 < s.heap.length := by
          have hdd := hwo.2.2
          rw [hds] at hdd
          exact idsBelow_mem hdd
        have hy : hget (hset s.heap oid
            ({ oobj with
                descriptors := some (aset props.uuid s.heap.length ds) } : Obj)
            ++ [dscObj path]) s.heap.length = some (dscObj path) := by
          have hc := hget_append_cons (hset s.heap oid
            ({ oobj with
                descriptors := some (aset props.uuid s.heap.length ds) } : Obj))
            (dscObj path) []
          rw [length_hset] at hc
          exact hc
        refine viewState_swap ?w2 ?n2 ?a2 ?c2 ?y2 ?hw2 ?hn2 ?hnw2 ?hu12 ?hy2
          ?hh2 ?hrel2 ?hall2 ?hap2 ?had2 ?hdev2 ?hpm2 d
        case hu12 =>
          exact hget_append_of_lt (hget_hset_self hoo _) [dscObj path]
        case hy2 => exact hy
        case hh2 => exact rfl
        case hap2 => exact rfl
        case had2 => exact rfl
        case hw2 =>
          rw [hLp]
          omega
        case hn2 =>
          rw [hLp]
          omega
        case hnw2 => omega
        case hrel2 =>
          -- owner after the second `aset` is related to the owner after
          -- the first
          refine ⟨rfl, ?_, ?_, ?_⟩
          · refine omRel_refl_below (Nat.le_refl _) ?_
            refine idsBelow_mono ?_ hwo.1
            rw [hLp]
            omega
          · refine omRel_refl_below (Nat.le_refl _) ?_
            refine idsBelow_mono ?_ hwo.2.1
            rw [hLp]
            omega
          · apply forall₂_aset_present
            · exact alookup_aset_self _ _ _
            · intro kv hkv
              rcases mem_aset hkv with h | h
              · rw [h]
                refine ⟨rfl, Or.inl ⟨rfl, ?_, ?_⟩⟩
                · rw [hLp]
                  omega
                · rw [hLp]
                  omega
              · have := hdsb kv h
                refine ⟨rfl, Or.inl ⟨rfl, ?_, ?_⟩⟩
                · rw [hLp]
                  omega
                · rw [hLp]
                  omega
            · exact ⟨rfl, Or.inr ⟨rfl, rfl⟩⟩
        case hall2 =>
          intro i o hib hiw hgo
          rw [hLp] at hib
          rw [hLp]
          by_cases hin : i = s.heap.length
          · subst hin
            rw [hy] at hgo
            injection hgo with hgo
            subst hgo
            rfl
          · have hi : i < s.heap.length := by omega
            have hi2 : i < (hset s.heap oid
                ({ oobj with
                    descriptors :=
                      some (aset props.uuid s.heap.length ds) } : Obj)).length := by
              rw [length_hset]
              exact hi
            rw [hget_append_lt hi2, hget_hset_ne hiw] at hgo
            exact wfObj_mono (by omega) (hwh o (hget_mem hgo))
        case hdev2 =>
          refine devices_refl (l := s.devices) fun kv hkv i hv =>
            Or.inl ⟨rfl, ?_, ?_⟩
          · rw [hLp]
            have := hwd kv hkv i hv
            omega
          · rw [hLp]
            have := hwd kv hkv i hv
            omega
        case hpm2 =>
          refine pathMap_refl (l := s.pathMap) fun kv hkv => ?_
          have := hwp kv hkv
          refine Or.inl ⟨rfl, ?_, ?_⟩
          · rw [hLp]
            omega
          · rw [hLp]
            omega

theorem replay_characteristic (t : Transport) (s : BluezState) (path : String)
    (props : PropBag) (hwf : wf s = true) (d : Nat) :
    viewState d
      (addCharacteristic t (addCharacteristic t s path props).1 path props).1 =
    viewState d (addCharacteristic t s path props).1 := by
  obtain ⟨hwd, hwp, hwh⟩ := wf_unfold hwf
  have hpid1 : ∀ pid, alookup path s.pathMap = some pid → pid < s.heap.length :=
    fun pid hp => hwp _ (alookup_mem hp)
  by_cases hb1 : t path "org.bluez.GattCharacteristic1" = true
  case neg =>
    rw [Bool.not_eq_true] at hb1
    have h1 := addCharacteristic_bindfail1 (t := t) (s := s) props hb1
    have e1 : (addCharacteristic t s path props).1 =
        { s with
            binds := ⟨path, "org.bluez.GattCharacteristic1"⟩ :: s.binds } := by
      rw [h1]
    have h2 := addCharacteristic_bindfail1
      (s := { s with
          binds := ⟨path, "org.bluez.GattCharacteristic1"⟩ :: s.binds })
      props hb1
    rw [e1, h2]
    exact viewState_eq_of_fields rfl rfl rfl rfl rfl d
  by_cases hb2 : t path "org.freedesktop.DBus.Properties" = true
  case neg =>
    rw [Bool.not_eq_true] at hb2
    have h1 := addCharacteristic_bindfail2 (t := t) (s := s) props hb1 hb2
    have e1 : (addCharacteristic t s path props).1 =
        { s with
            binds := ⟨path, "org.freedesktop.DBus.Properties"⟩ ::
              ⟨path, "org.bluez.GattCharacteristic1"⟩ :: s.binds } := by
      rw [h1]
    have h2 := addCharacteristic_bindfail2
      (s := { s with
          binds := ⟨path, "org.freedesktop.DBus.Properties"⟩ ::
            ⟨path, "org.bluez.GattCharacteristic1"⟩ :: s.binds })
      props hb1 hb2
    rw [e1, h2]
    exact viewState_eq_of_fields rfl rfl rfl rfl rfl d
  rcases ho : alookup props.service s.pathMap with _ | oid
  · -- the owner service is not indexed yet
    by_cases hsp : props.service = path
    · -- the notification names the characteristic's own path as its service:
      -- the replay finds the characteristic itself there and throws
      have h1 := addCharacteristic_owner_none props hb1 hb2 ho hpid1
      have e1 : (addCharacteristic t s path props).1 =
          { s with
              heap := s.heap ++ [{ chrObj path with
                  descriptors := some (spliceDescs s.heap s.pathMap path) },
                { kind := .placeholder,
                  characteristics := some [(props.uuid, s.heap.length)] }],
              pathMap := aset path s.heap.length
                (aset props.service (s.heap.length + 1) s.pathMap),
              binds := ⟨path, "org.freedesktop.DBus.Properties"⟩ ::
                ⟨path, "org.bluez.GattCharacteristic1"⟩ :: s.binds } := by
        rw [h1]
      have hLp : (addCharacteristic t s path props).1.heap.length =
          s.heap.length + 2 := by
        rw [e1]
        simp
      rw [e1] at hLp
      have h2 := addCharacteristic_owner_typeerr
        (s := { s with
            heap := s.heap ++ [{ chrObj path with
                descriptors := some (spliceDescs s.heap s.pathMap path) },
              { kind := .placeholder,
                characteristics := some [(props.uuid, s.heap.length)] }],
            pathMap := aset path s.heap.length
              (aset props.service (s.heap.length + 1) s.pathMap),
            binds := ⟨path, "org.freedesktop.DBus.Properties"⟩ ::
              ⟨path, "org.bluez.GattCharacteristic1"⟩ :: s.binds })
        props hb1 hb2
        (by rw [hsp]; exact alookup_aset_self _ _ _)
        (hget_append_cons s.heap _ _) rfl
        (fun pid hp => by
          rw [alookup_aset_self] at hp
          injection hp with hp
          subst hp
          rw [hLp]
          omega)
      rw [e1, h2]
      refine viewState_garbage ?geA ?ghA ?gapA ?gadA ?gdevA ?gpmA ?gwfA d
      case ghA => exact rfl
      case gapA => exact rfl
      case gadA => exact rfl
      case gdevA => exact rfl
      case gpmA => exact rfl
      case gwfA =>
        apply wf_parts
        · intro kv hkv i hv
          rw [hLp]
          have := hwd kv hkv i hv
          omega
        · intro kv hkv
          rw [hLp]
          rcases mem_aset hkv with h | h
          · rw [h]
            show s.heap.length < s.heap.length + 2
            omega
          · rcases mem_aset h with h3 | h3
            · rw [h3]
              show s.heap.length + 1 < s.heap.length + 2
              omega
            · have := hwp kv h3
              omega
        · intro o ho2
          rw [hLp]
          rcases List.mem_append.mp ho2 with h | h
          · exact wfObj_mono (by omega) (hwh o h)
          · rcases List.mem_cons.mp h with h3 | h3
            · subst h3
              rw [wfObj, Bool.and_eq_true, Bool.and_eq_true]
              refine ⟨⟨rfl, rfl⟩, ?_⟩
              exact idsBelow_of_mem fun kv hkv => by
                have := spliceDescs_bound hwf path kv hkv
                omega
            · rw [List.mem_singleton] at h3
              subst h3
              rw [wfObj, Bool.and_eq_true, Bool.and_eq_true]
              refine ⟨⟨rfl, ?_⟩, rfl⟩
              exact idsBelow_of_mem fun kv hkv => by
                rw [List.mem_singleton] at hkv
                subst hkv
                show s.heap.length < s.heap.length + 2
                omega
    · -- distinct service path: the replay splices from the indexed
      -- characteristic and re-asets the placeholder, replacing ids
      have h1 := addCharacteristic_owner_none props hb1 hb2 ho hpid1
      have e1 : (addCharacteristic t s path props).1 =
          { s with
              heap := s.heap ++ [{ chrObj path with
                  descriptors := some (spliceDescs s.heap s.pathMap path) },
                { kind := .placeholder,
                  characteristics := some [(props.uuid, s.heap.length)] }],
              pathMap := aset path s.heap.length
                (aset props.service (s.heap.length + 1) s.pathMap),
              binds := ⟨path, "org.freedesktop.DBus.Properties"⟩ ::
                ⟨path, "org.bluez.GattCharacteristic1"⟩ :: s.binds } := by
        rw [h1]
      have hLp : (addCharacteristic t s path props).1.heap.length =
          s.heap.length + 2 := by
        rw [e1]
        simp
      rw [e1] at hLp
      have h2 := addCharacteristic_owner_ok
        (s := { s with
            heap := s.heap ++ [{ chrObj path with
                descriptors := some (spliceDescs s.heap s.pathMap path) },
              { kind := .placeholder,
                characteristics := some [(props.uuid, s.heap.length)] }],
            pathMap := aset path s.heap.length
              (aset props.service (s.heap.length + 1) s.pathMap),
            binds := ⟨path, "org.freedesktop.DBus.Properties"⟩ ::
              ⟨path, "org.bluez.GattCharacteristic1"⟩ :: s.binds })
        props hb1 hb2
        (by rw [alookup_aset_ne hsp]; exact alookup_aset_self _ _ _)
        (hget_append_cons_one s.heap _ _ []) rfl
        (fun pid hp => by
          rw [alookup_aset_self] at hp
          injection hp with hp
          subst hp
          rw [hLp]
          omega)
      rw [e1, h2]
      have hsd : spliceDescs
          (s.heap ++ [{ chrObj path with
              descriptors := some (spliceDescs s.heap s.pathMap path) },
            { kind := .placeholder,
              characteristics := some [(props.uuid, s.heap.length)] }])
          (aset path s.heap.length
            (aset props.service (s.heap.length + 1) s.pathMap)) path =
          spliceDescs s.heap s.pathMap path := by
        simp [spliceDescs, alookup_aset_self, hget_append_cons]
      refine viewState_swap ?w1 ?n1 ?a1 ?c1 ?y1 ?hw1 ?hn1 ?hnw1 ?hu11 ?hy1
        ?hh1 ?hrel1 ?hall1 ?hap1 ?had1 ?hdev1 ?hpm1 d
      case hu11 => exact hget_append_cons_one s.heap _ _ []
      case hy1 => exact hget_append_cons s.heap _ _
      case hh1 =>
        rw [hsd]
        exact rfl
      case hap1 => exact rfl
      case had1 => exact rfl
      case hw1 =>
        rw [hLp]
        omega
      case hn1 =>
        rw [hLp]
        omega
      case hnw1 => omega
      case hrel1 =>
        refine ⟨rfl, trivial, ?_, trivial⟩
        apply forall₂_aset_present
        · exact alookup_aset_self props.uuid s.heap.length []
        · intro kv hkv
          rw [List.mem_singleton] at hkv
          subst hkv
          refine ⟨rfl, Or.inl ⟨rfl, ?_, ?_⟩⟩
          · rw [hLp]
            omega
          · rw [hLp]
            omega
        · exact ⟨rfl, Or.inr ⟨rfl, rfl⟩⟩
      case hall1 =>
        intro i o hib hiw hgo
        rw [hLp] at hib
        rw [hLp]
        by_cases hin : i = s.heap.length
        · subst hin
          rw [hget_append_cons s.heap _ _] at hgo
          injection hgo with hgo
          subst hgo
          rw [wfObj, Bool.and_eq_true, Bool.and_eq_true]
          refine ⟨⟨rfl, rfl⟩, ?_⟩
          exact idsBelow_of_mem fun kv hkv => by
            have := spliceDescs_bound hwf path kv hkv
            omega
        · have hi : i < s.heap.length := by omega
          rw [hget_append_lt hi] at hgo
          exact wfObj_mono (by omega) (hwh o (hget_mem hgo))
      case hdev1 =>
        refine devices_refl (l := s.devices) fun kv hkv i hv =>
          Or.inl ⟨rfl, ?_, ?_⟩
        · rw [hLp]
          have := hwd kv hkv i hv
          omega
        · rw [hLp]
          have := hwd kv hkv i hv
          omega
      case hpm1 =>
        apply forall₂_aset_present
        · exact alookup_aset_self _ _ _
        · intro kv hkv
          rcases mem_aset hkv with h | h
          · rw [h]
            refine ⟨rfl, Or.inl ⟨rfl, ?_, ?_⟩⟩
            · rw [hLp]
              show s.heap.length < s.heap.length + 2
              omega
            · rw [hLp]
              show s.heap.length ≠ s.heap.length + 2
              omega
          · rcases mem_aset h with h3 | h3
            · rw [h3]
              refine ⟨rfl, Or.inl ⟨rfl, ?_, ?_⟩⟩
              · rw [hLp]
                show s.heap.length + 1 < s.heap.length + 2
                omega
              · rw [hLp]
                show s.heap.length + 1 ≠ s.heap.length + 2
                omega
            · have := hwp kv h3
              refine ⟨rfl, Or.inl ⟨rfl, ?_, ?_⟩⟩
              · rw [hLp]
                omega
              · rw [hLp]
                omega
        · exact ⟨rfl, Or.inr ⟨rfl, rfl⟩⟩
  · -- the owner service (or a placeholder) is already indexed
    have hoid : oid < s.heap.length := hwp _ (alookup_mem ho)
    obtain ⟨oobj, hoo, hmo⟩ := hget_of_lt hoid
    rcases hoc : oobj.characteristics with _ | cs
    · -- the owner has no characteristic map: both applications throw
      have h1 := addCharacteristic_owner_typeerr props hb1 hb2 ho hoo hoc hpid1
      have e1 : (addCharacteristic t s path props).1 =
          { s with
              heap := s.heap ++ [{ chrObj path with
                descriptors := some (spliceDescs s.heap s.pathMap path) }],
              binds := ⟨path, "org.freedesktop.DBus.Properties"⟩ ::
                ⟨path, "org.bluez.GattCharacteristic1"⟩ :: s.binds } := by
        rw [h1]
      have hLp : (addCharacteristic t s path props).1.heap.length =
          s.heap.length + 1 := by
        rw [e1]
        simp
      rw [e1] at hLp
      have h2 := addCharacteristic_owner_typeerr
        (s := { s with
            heap := s.heap ++ [{ chrObj path with
              descriptors := some (spliceDescs s.heap s.pathMap path) }],
            binds := ⟨path, "org.freedesktop.DBus.Properties"⟩ ::
              ⟨path, "org.bluez.GattCharacteristic1"⟩ :: s.binds })
        props hb1 hb2 ho (hget_append_of_lt hoo _) hoc
        (fun pid hp => by
          rw [hLp]
          exact Nat.lt_succ_of_lt (hwp _ (alookup_mem hp)))
      rw [e1, h2]
      refine viewState_garbage ?geB ?ghB ?gapB ?gadB ?gdevB ?gpmB ?gwfB d
      case ghB => exact rfl
      case gapB => exact rfl
      case gadB => exact rfl
      case gdevB => exact rfl
      case gpmB => exact rfl
      case gwfB =>
        refine wf_extend_roots hwf rfl rfl rfl ?_
        intro o ho2
        rw [List.mem_singleton] at ho2
        subst ho2
        rw [wfObj, Bool.and_eq_true, Bool.and_eq_true]
        refine ⟨⟨rfl, rfl⟩, ?_⟩
        exact idsBelow_of_mem fun kv hkv => by
          have := spliceDescs_bound hwf path kv hkv
          omega
    · have hcsb : ∀ kv ∈ cs, kv.2 < s.heap.length := by
        have hcc := (wfObj_unfold (hwh oobj hmo)).2.1
        rw [hoc] at hcc
        exact idsBelow_mem hcc
      have hwo := wfObj_unfold (hwh oobj hmo)
      by_cases hsp : props.service = path
      · -- the owner entry is clobbered by the characteristic itself
        -- (`this._path[path] = characteristic`), so the replay throws
        have h1 := addCharacteristic_owner_ok props hb1 hb2 ho hoo hoc hpid1
        have e1 : (addCharacteristic t s path props).1 =
            { s with
                heap := hset s.heap oid
                    { oobj with
                        characteristics :=
                          some (aset props.uuid s.heap.length cs) }
                  ++ [{ chrObj path with
                    descriptors := some (spliceDescs s.heap s.pathMap path) }],
                pathMap := aset path s.heap.length s.pathMap,
                binds := ⟨path, "org.freedesktop.DBus.Properties"⟩ ::
                  ⟨path, "org.bluez.GattCharacteristic1"⟩ :: s.binds } := by
          rw [h1]
        have hLp : (addCharacteristic t s path props).1.heap.length =
            s.heap.length + 1 := by
          rw [e1]
          simp [length_hset]
        rw [e1] at hLp
        have hy : hget (hset s.heap oid
            ({ oobj with
                characteristics :=
                  some (aset props.uuid s.heap.length cs) } : Obj)
            ++ [{ chrObj path with
              descriptors := some (spliceDescs s.heap s.pathMap path) }])
            s.heap.length = some { chrObj path with
              descriptors := some (spliceDescs s.heap s.pathMap path) } := by
          have hc := hget_append_cons (hset s.heap oid
            ({ oobj with
                characteristics :=
                  some (aset props.uuid s.heap.length cs) } : Obj))
            ({ chrObj path with
              descriptors := some (spliceDescs s.heap s.pathMap path) } : Obj)
            []
          rw [length_hset] at hc
          exact hc
        have h2 := addCharacteristic_owner_typeerr
          (s := { s with
              heap := hset s.heap oid
                  { oobj with
                      characteristics :=
                        some (aset props.uuid s.heap.length cs) }
                ++ [{ chrObj path with
                  descriptors := some (spliceDescs s.heap s.pathMap path) }],
              pathMap := aset path s.heap.length s.pathMap,
              binds := ⟨path, "org.freedesktop.DBus.Properties"⟩ ::
                ⟨path, "org.bluez.GattCharacteristic1"⟩ :: s.binds })
          props hb1 hb2
          (by rw [hsp]; exact alookup_aset_self _ _ _) hy rfl
          (fun pid hp => by
            rw [alookup_aset_self] at hp
            injection hp with hp
            subst hp
            rw [hLp]
            omega)
        rw [e1, h2]
        refine viewState_garbage ?geC ?ghC ?gapC ?gadC ?gdevC ?gpmC ?gwfC d
        case ghC => exact rfl
        case gapC => exact rfl
        case gadC => exact rfl
        case gdevC => exact rfl
        case gpmC => exact rfl
        case gwfC =>
          apply wf_parts
          · intro kv hkv i hv
            rw [hLp]
            have := hwd kv hkv i hv
            omega
          · intro kv hkv
            rw [hLp]
            rcases mem_aset hkv with h | h
            · rw [h]
              show s.heap.length < s.heap.length + 1
              omega
            · have := hwp kv h
              omega
          · intro o ho2
            rw [hLp]
            rcases List.mem_append.mp ho2 with h | h
            · rcases mem_hset h with h3 | h3
              · subst h3
                rw [wfObj, Bool.and_eq_true, Bool.and_eq_true]
                refine ⟨⟨?_, ?_⟩, ?_⟩
                · exact idsBelow_mono (by omega) hwo.1
                · exact idsBelow_of_mem fun kv hkv => by
                    rcases mem_aset hkv with h4 | h4
                    · rw [h4]
                      show s.heap.length < s.heap.length + 1
                      omega
                    · have := hcsb kv h4
                      omega
                · exact idsBelow_mono (by omega) hwo.2.2
              · exact wfObj_mono (by omega) (hwh o h3)
            · rw [List.mem_singleton] at h
              subst h
              rw [wfObj, Bool.and_eq_true, Bool.and_eq_true]
              refine ⟨⟨rfl, rfl⟩, ?_⟩
              exact idsBelow_of_mem fun kv hkv => by
                have := spliceDescs_bound hwf path kv hkv
                omega
      · -- distinct service path: in-place owner update plus one
        -- replacement characteristic object
        have h1 := addCharacteristic_owner_ok props hb1 hb2 ho hoo hoc hpid1
        have e1 : (addCharacteristic t s path props).1 =
            { s with
                heap := hset s.heap oid
                    { oobj with
                        characteristics :=
                          some (aset props.uuid s.heap.length cs) }
                  ++ [{ chrObj path with
                    descriptors := some (spliceDescs s.heap s.pathMap path) }],
                pathMap := aset path s.heap.length s.pathMap,
                binds := ⟨path, "org.freedesktop.DBus.Properties"⟩ ::
                  ⟨path, "org.bluez.GattCharacteristic1"⟩ :: s.binds } := by
          rw [h1]
        have hLp : (addCharacteristic t s path props).1.heap.length =
            s.heap.length + 1 := by
          rw [e1]
          simp [length_hset]
        rw [e1] at hLp
        have hy : hget (hset s.heap oid
            ({ oobj with
                characteristics :=
                  some (aset props.uuid s.heap.length cs) } : Obj)
            ++ [{ chrObj path with
              descriptors := some (spliceDescs s.heap s.pathMap path) }])
            s.heap.length = some { chrObj path with
              descriptors := some (spliceDescs s.heap s.pathMap path) } := by
          have hc := hget_append_cons (hset s.heap oid
            ({ oobj with
                characteristics :=
                  some (aset props.uuid s.heap.length cs) } : Obj))
            ({ chrObj path with
              descriptors := some (spliceDescs s.heap s.pathMap path) } : Obj)
            []
          rw [length_hset] at hc
          exact hc
        have h2 := addCharacteristic_owner_ok
          (s := { s with
              heap := hset s.heap oid
                  { oobj with
                      characteristics :=
                        some (aset props.uuid s.heap.length cs) }
                ++ [{ chrObj path with
                  descriptors := some (spliceDescs s.heap s.pathMap path) }],
              pathMap := aset path s.heap.length s.pathMap,
              binds := ⟨path, "org.freedesktop.DBus.Properties"⟩ ::
                ⟨path, "org.bluez.GattCharacteristic1"⟩ :: s.binds })
          props hb1 hb2
          (by rw [alookup_aset_ne hsp]; exact ho)
          (hget_append_of_lt (hget_hset_self hoo _) _) rfl
          (fun pid hp => by
            rw [alookup_aset_self] at hp
            injection hp with hp
            subst hp
            rw [hLp]
            omega)
        rw [e1, h2]
        have hsd : spliceDescs
            (hset s.heap oid
                ({ oobj with
                    characteristics :=
                      some (aset props.uuid s.heap.length cs) } : Obj)
              ++ [{ chrObj path with
                descriptors := some (spliceDescs s.heap s.pathMap path) }])
            (aset path s.heap.length s.pathMap) path =
            spliceDescs s.heap s.pathMap path := by
          have hy3 := hy
          simp only [spliceDescs] at hy3
          simp [spliceDescs, alookup_aset_self, hy3]
        refine viewState_swap ?w2 ?n2 ?a2 ?c2 ?y2 ?hw2 ?hn2 ?hnw2 ?hu12 ?hy2
          ?hh2 ?hrel2 ?hall2 ?hap2 ?had2 ?hdev2 ?hpm2 d
        case hu12 =>
          exact hget_append_of_lt (hget_hset_self hoo _) _
        case hy2 => exact hy
        case hh2 =>
          rw [hsd]
          exact rfl
        case hap2 => exact rfl
        case had2 => exact rfl
        case hw2 =>
          rw [hLp]
          omega
        case hn2 =>
          rw [hLp]
          omega
        case hnw2 => omega
        case hrel2 =>
          refine ⟨rfl, ?_, ?_, ?_⟩
          · refine omRel_refl_below (Nat.le_refl _) ?_
            refine idsBelow_mono ?_ hwo.1
            rw [hLp]
            omega
          · apply forall₂_aset_present
            · exact alookup_aset_self _ _ _
            · intro kv hkv
              rcases mem_aset hkv with h | h
              · rw [h]
                refine ⟨rfl, Or.inl ⟨rfl, ?_, ?_⟩⟩
                · rw [hLp]
                  show s.heap.length < s.heap.length + 1
                  omega
                · rw [hLp]
                  show s.heap.length ≠ s.heap.length + 1
                  omega
              · have := hcsb kv h
                refine ⟨rfl, Or.inl ⟨rfl, ?_, ?_⟩⟩
                · rw [hLp]
                  omega
                · rw [hLp]
                  omega
            · exact ⟨rfl, Or.inr ⟨rfl, rfl⟩⟩
          · refine omRel_refl_below (Nat.le_refl _) ?_
            refine idsBelow_mono ?_ hwo.2.2
            rw [hLp]
            omega
        case hall2 =>
          intro i o hib hiw hgo
          rw [hLp] at hib
          rw [hLp]
          by_cases hin : i = s.heap.length
          · subst hin
            rw [hy] at hgo
            injection hgo with hgo
            subst hgo
            rw [wfObj, Bool.and_eq_true, Bool.and_eq_true]
            refine ⟨⟨rfl, rfl⟩, ?_⟩
            exact idsBelow_of_mem fun kv hkv => by
              have := spliceDescs_bound hwf path kv hkv
              omega
          · have hi : i < s.heap.length := by omega
            have hi2 : i < (hset s.heap oid
                ({ oobj with
                    characteristics :=
                      some (aset props.uuid s.heap.length cs) } : Obj)).length := by
              rw [length_hset]
              exact hi
            rw [hget_append_lt hi2, hget_hset_ne hiw] at hgo
            exact wfObj_mono (by omega) (hwh o (hget_mem hgo))
        case hdev2 =>
          refine devices_refl (l := s.devices) fun kv hkv i hv =>
            Or.inl ⟨rfl, ?_, ?_⟩
          · rw [hLp]
            have := hwd kv hkv i hv
            omega
          · rw [hLp]
            have := hwd kv hkv i hv
            omega
        case hpm2 =>
          apply forall₂_aset_present
          · exact alookup_aset_self _ _ _
          · intro kv hkv
            rcases mem_aset hkv with h | h
            · rw [h]
              refine ⟨rfl, Or.inl ⟨rfl, ?_, ?_⟩⟩
              · rw [hLp]
                show s.heap.length < s.heap.length + 1
                omega
              · rw [hLp]
                show s.heap.length ≠ s.heap.length + 1
                omega
            · have := hwp kv h
              refine ⟨rfl, Or.inl ⟨rfl, ?_, ?_⟩⟩
              · rw [hLp]
                omega
              · rw [hLp]
                omega
          · exact ⟨rfl, Or.inr ⟨rfl, rfl⟩⟩

theorem replay_service (t : Transport) (s : BluezState) (path : String)
    (props : PropBag) (hwf : wf s = true) (d : Nat) :
    viewState d (addService t (addService t s path props).1 path props).1 =
    viewState d (addService t s path props).1 := by
  obtain ⟨hwd, hwp, hwh⟩ := wf_unfold hwf
  have hpid1 : ∀ pid, alookup path s.pathMap = some pid → pid < s.heap.length :=
    fun pid hp => hwp _ (alookup_mem hp)
  by_cases hb : t path "org.bluez.GattService1" = true
  case neg =>
    rw [Bool.not_eq_true] at hb
    have h1 := addService_bindfail (t := t) (s := s) props hb
    have e1 : (addService t s path props).1 =
        { s with binds := ⟨path, "org.bluez.GattService1"⟩ :: s.binds } := by
      rw [h1]
    have h2 := addService_bindfail
      (s := { s with binds := ⟨path, "org.bluez.GattService1"⟩ :: s.binds })
      props hb
    rw [e1, h2]
    exact viewState_eq_of_fields rfl rfl rfl rfl rfl d
  rcases hd : alookup (normalizeAddr props.device) s.devices with _ | dv
  · -- no device registered for the address: both applications throw,
    -- each leaving one orphaned service object on the heap
    have h1 := addService_devnone props hb hd
    have e1 : (addService t s path props).1 =
        { s with
            heap := s.heap ++ [svcObj path],
            binds := ⟨path, "org.bluez.GattService1"⟩ :: s.binds } := by
      rw [h1]
    have h2 := addService_devnone
      (s := { s with
          heap := s.heap ++ [svcObj path],
          binds := ⟨path, "org.bluez.GattService1"⟩ :: s.binds })
      props hb hd
    rw [e1, h2]
    refine viewState_garbage ?geA ?ghA ?gapA ?gadA ?gdevA ?gpmA ?gwfA d
    case ghA => exact rfl
    case gapA => exact rfl
    case gadA => exact rfl
    case gdevA => exact rfl
    case gpmA => exact rfl
    case gwfA =>
      refine wf_extend_roots hwf rfl rfl rfl ?_
      intro o ho2
      rw [List.mem_singleton] at ho2
      subst ho2
      rfl
  rcases dv with p | did
  · -- the address maps to a bare path: the resolver races through two binds
    by_cases h1b : t p "org.bluez.Device1" = true
    case neg =>
      rw [Bool.not_eq_true] at h1b
      have h1 := addService_dev_bindfail props hb hd h1b
      have e1 : (addService t s path props).1 =
          { s with
              heap := s.heap ++ [svcObj path],
              binds := ⟨p, "org.bluez.Device1"⟩ ::
                ⟨path, "org.bluez.GattService1"⟩ :: s.binds } := by
        rw [h1]
      have h2 := addService_dev_bindfail
        (s := { s with
            heap := s.heap ++ [svcObj path],
            binds := ⟨p, "org.bluez.Device1"⟩ ::
              ⟨path, "org.bluez.GattService1"⟩ :: s.binds })
        props hb hd h1b
      rw [e1, h2]
      refine viewState_garbage ?geB ?ghB ?gapB ?gadB ?gdevB ?gpmB ?gwfB d
      case ghB => exact rfl
      case gapB => exact rfl
      case gadB => exact rfl
      case gdevB => exact rfl
      case gpmB => exact rfl
      case gwfB =>
        refine wf_extend_roots hwf rfl rfl rfl ?_
        intro o ho2
        rw [List.mem_singleton] at ho2
        subst ho2
        rfl
    by_cases h2b : t ("/org/bluez/hci0/dev_" ++ replaceAll ':' '_' props.device)
        "org.freedesktop.DBus.Properties" = true
    case neg =>
      rw [Bool.not_eq_true] at h2b
      have h1 := addService_props_bindfail props hb hd h1b h2b
      have e1 : (addService t s path props).1 =
          { s with
              heap := s.heap ++ [svcObj path],
              binds := ⟨"/org/bluez/hci0/dev_" ++ replaceAll ':' '_' props.device,
                  "org.freedesktop.DBus.Properties"⟩ ::
                ⟨p, "org.bluez.Device1"⟩ ::
                ⟨path, "org.bluez.GattService1"⟩ :: s.binds } := by
        rw [h1]
      have h2 := addService_props_bindfail
        (s := { s with
            heap := s.heap ++ [svcObj path],
            binds := ⟨"/org/bluez/hci0/dev_" ++ replaceAll ':' '_' props.device,
                "org.freedesktop.DBus.Properties"⟩ ::
              ⟨p, "org.bluez.Device1"⟩ ::
              ⟨path, "org.bluez.GattService1"⟩ :: s.binds })
        props hb hd h1b h2b
      rw [e1, h2]
      refine viewState_garbage ?geC ?ghC ?gapC ?gadC ?gdevC ?gpmC ?gwfC d
      case ghC => exact rfl
      case gapC => exact rfl
      case gadC => exact rfl
      case gdevC => exact rfl
      case gpmC => exact rfl
      case gwfC =>
        refine wf_extend_roots hwf rfl rfl rfl ?_
        intro o ho2
        rw [List.mem_singleton] at ho2
        subst ho2
        rfl
    -- both binds succeed: the first application installs the device and
    -- service, the replay finds the installed device and replaces the
    -- service entity
    have h1 := addService_path_ok props hb hd h1b h2b hpid1
    have e1 : (addService t s path props).1 =
        { s with
            heap := s.heap ++ [{ svcObj path with
                characteristics := some (spliceChars s.heap s.pathMap path) },
              { devObj p (replaceAll ':' '_' props.device) with
                  services := some [(props.uuid, s.heap.length)] }],
            devices := aset (normalizeAddr props.device)
              (.obj (s.heap.length + 1)) s.devices,
            pathMap := aset path s.heap.length s.pathMap,
            binds := ⟨"/org/bluez/hci0/dev_" ++ replaceAll ':' '_' props.device,
                "org.freedesktop.DBus.Properties"⟩ ::
              ⟨p, "org.bluez.Device1"⟩ ::
              ⟨path, "org.bluez.GattService1"⟩ :: s.binds } := by
      rw [h1]
    have hLp : (addService t s path props).1.heap.length =
        s.heap.length + 2 := by
      rw [e1]
      simp
    rw [e1] at hLp
    have hy : hget (s.heap ++ [{ svcObj path with
        characteristics := some (spliceChars s.heap s.pathMap path) },
      { devObj p (replaceAll ':' '_' props.device) with
          services := some [(props.uuid, s.heap.length)] }]) s.heap.length =
        some { svcObj path with
          characteristics := some (spliceChars s.heap s.pathMap path) } :=
      hget_append_cons s.heap _ _
    have h2 := addService_obj_ok
      (s := { s with
          heap := s.heap ++ [{ svcObj path with
              characteristics := some (spliceChars s.heap s.pathMap path) },
            { devObj p (replaceAll ':' '_' props.device) with
                services := some [(props.uuid, s.heap.length)] }],
          devices := aset (normalizeAddr props.device)
            (.obj (s.heap.length + 1)) s.devices,
          pathMap := aset path s.heap.length s.pathMap,
          binds := ⟨"/org/bluez/hci0/dev_" ++ replaceAll ':' '_' props.device,
              "org.freedesktop.DBus.Properties"⟩ ::
            ⟨p, "org.bluez.Device1"⟩ ::
            ⟨path, "org.bluez.GattService1"⟩ :: s.binds })
      props hb (alookup_aset_self _ _ _)
      (hget_append_cons_one s.heap _ _ []) rfl
      (fun pid hp => by
        rw [alookup_aset_self] at hp
        injection hp with hp
        subst hp
        rw [hLp]
        omega)
    rw [e1, h2]
    have hsc : spliceChars
        (s.heap ++ [{ svcObj path with
            characteristics := some (spliceChars s.heap s.pathMap path) },
          { devObj p (replaceAll ':' '_' props.device) with
              services := some [(props.uuid, s.heap.length)] }])
        (aset path s.heap.length s.pathMap) path =
        spliceChars s.heap s.pathMap path := by
      have hy3 := hy
      simp only [spliceChars] at hy3
      simp [spliceChars, alookup_aset_self, hy3]
    refine viewState_swap ?w1 ?n1 ?a1 ?c1 ?y1 ?hw1 ?hn1 ?hnw1 ?hu11 ?hy1
      ?hh1 ?hrel1 ?hall1 ?hap1 ?had1 ?hdev1 ?hpm1 d
    case hu11 => exact hget_append_cons_one s.heap _ _ []
    case hy1 => exact hy
    case hh1 =>
      rw [hsc]
      exact rfl
    case hap1 => exact rfl
    case had1 => exact rfl
    case hw1 =>
      rw [hLp]
      omega
    case hn1 =>
      rw [hLp]
      omega
    case hnw1 => omega
    case hrel1 =>
      refine ⟨rfl, ?_, trivial, trivial⟩
      apply forall₂_aset_present
      · exact alookup_aset_self props.uuid s.heap.length []
      · intro kv hkv
        rw [List.mem_singleton] at hkv
        subst hkv
        refine ⟨rfl, Or.inl ⟨rfl, ?_, ?_⟩⟩
        · rw [hLp]
          omega
        · rw [hLp]
          omega
      · exact ⟨rfl, Or.inr ⟨rfl, rfl⟩⟩
    case hall1 =>
      intro i o hib hiw hgo
      rw [hLp] at hib
      rw [hLp]
      by_cases hin : i = s.heap.length
      · subst hin
        rw [hy] at hgo
        injection hgo with hgo
        subst hgo
        rw [wfObj, Bool.and_eq_true, Bool.and_eq_true]
        refine ⟨⟨rfl, ?_⟩, rfl⟩
        exact idsBelow_of_mem fun kv hkv => by
          have := spliceChars_bound hwf path kv hkv
          omega
      · have hi : i < s.heap.length := by omega
        rw [hget_append_lt hi] at hgo
        exact wfObj_mono (by omega) (hwh o (hget_mem hgo))
    case hdev1 =>
      refine devices_refl
        (l := aset (normalizeAddr props.device)
          (.obj (s.heap.length + 1)) s.devices)
        fun kv hkv i hv => ?_
      rcases mem_aset hkv with h4 | h4
      · rw [h4] at hv
        injection hv with hv
        subst hv
        refine Or.inl ⟨rfl, ?_, ?_⟩
        · rw [hLp]
          omega
        · rw [hLp]
          omega
      · have := hwd kv h4 i hv
        refine Or.inl ⟨rfl, ?_, ?_⟩
        · rw [hLp]
          omega
        · rw [hLp]
          omega
    case hpm1 =>
      apply forall₂_aset_present
      · exact alookup_aset_self _ _ _
      · intro kv hkv
        rcases mem_aset hkv with h4 | h4
        · rw [h4]
          refine ⟨rfl, Or.inl ⟨rfl, ?_, ?_⟩⟩
          · rw [hLp]
            show s.heap.length < s.heap.length + 2
            omega
          · rw [hLp]
            show s.heap.length ≠ s.heap.length + 2
            omega
        · have := hwp kv h4
          refine ⟨rfl, Or.inl ⟨rfl, ?_, ?_⟩⟩
          · rw [hLp]
            omega
          · rw [hLp]
            omega
      · exact ⟨rfl, Or.inr ⟨rfl, rfl⟩⟩
  · -- the address already maps to an installed device object
    have hdid : did < s.heap.length := hwd _ (alookup_mem hd) did rfl
    obtain ⟨dobj, hdo, hmd⟩ := hget_of_lt hdid
    rcases hsv : dobj.services with _ | svcs
    · -- `dev.services` is undefined: both applications throw
      have h1 := addService_obj_typeerr props hb hd hdo hsv hpid1
      have e1 : (addService t s path props).1 =
          { s with
              heap := s.heap ++ [{ svcObj path with
                characteristics := some (spliceChars s.heap s.pathMap path) }],
              binds := ⟨path, "org.bluez.GattService1"⟩ :: s.binds } := by
        rw [h1]
      have hLp : (addService t s path props).1.heap.length =
          s.heap.length + 1 := by
        rw [e1]
        simp
      rw [e1] at hLp
      have h2 := addService_obj_typeerr
        (s := { s with
            heap := s.heap ++ [{ svcObj path with
              characteristics := some (spliceChars s.heap s.pathMap path) }],
            binds := ⟨path, "org.bluez.GattService1"⟩ :: s.binds })
        props hb hd (hget_append_of_lt hdo _) hsv
        (fun pid hp => by
          rw [hLp]
          exact Nat.lt_succ_of_lt (hwp _ (alookup_mem hp)))
      rw [e1, h2]
      refine viewState_garbage ?geD ?ghD ?gapD ?gadD ?gdevD ?gpmD ?gwfD d
      case ghD => exact rfl
      case gapD => exact rfl
      case gadD => exact rfl
      case gdevD => exact rfl
      case gpmD => exact rfl
      case gwfD =>
        refine wf_extend_roots hwf rfl rfl rfl ?_
        intro o ho2
        rw [List.mem_singleton] at ho2
        subst ho2
        rw [wfObj, Bool.and_eq_true, Bool.and_eq_true]
        refine ⟨⟨rfl, ?_⟩, rfl⟩
        exact idsBelow_of_mem fun kv hkv => by
          have := spliceChars_bound hwf path kv hkv
          omega
    · -- success: the replay re-asets the same UUID in the device and
      -- replaces the service object by an identical fresh one
      have hsvb : ∀ kv ∈ svcs, kv.2 < s.heap.length := by
        have hss := (wfObj_unfold (hwh dobj hmd)).1
        rw [hsv] at hss
        exact idsBelow_mem hss
      have hwo := wfObj_unfold (hwh dobj hmd)
      have h1 := addService_obj_ok props hb hd hdo hsv hpid1
      have e1 : (addService t s path props).1 =
          { s with
              heap := hset s.heap did
                  { dobj with
                      services := some (aset props.uuid s.heap.length svcs) }
                ++ [{ svcObj path with
                  characteristics := some (spliceChars s.heap s.pathMap path) }],
              pathMap := aset path s.heap.length s.pathMap,
              binds := ⟨path, "org.bluez.GattService1"⟩ :: s.binds } := by
        rw [h1]
      have hLp : (addService t s path props).1.heap.length =
          s.heap.length + 1 := by
        rw [e1]
        simp [length_hset]
      rw [e1] at hLp
      have hy : hget (hset s.heap did
          ({ dobj with
              services := some (aset props.uuid s.heap.length svcs) } : Obj)
          ++ [{ svcObj path with
            characteristics := some (spliceChars s.heap s.pathMap path) }])
          s.heap.length = some { svcObj path with
            characteristics := some (spliceChars s.heap s.pathMap path) } := by
        have hc := hget_append_cons (hset s.heap did
          ({ dobj with
              services := some (aset props.uuid s.heap.length svcs) } : Obj))
          ({ svcObj path with
            characteristics := some (spliceChars s.heap s.pathMap path) } : Obj)
          []
        rw [length_hset] at hc
        exact hc
      have h2 := addService_obj_ok
        (s := { s with
            heap := hset s.heap did
                { dobj with
                    services := some (aset props.uuid s.heap.length svcs) }
              ++ [{ svcObj path with
                characteristics := some (spliceChars s.heap s.pathMap path) }],
            pathMap := aset path s.heap.length s.pathMap,
            binds := ⟨path, "org.bluez.GattService1"⟩ :: s.binds })
        props hb hd
        (hget_append_of_lt (hget_hset_self hdo _) _) rfl
        (fun pid hp => by
          rw [alookup_aset_self] at hp
          injection hp with hp
          subst hp
          rw [hLp]
          omega)
      rw [e1, h2]
      have hsc : spliceChars
          (hset s.heap did
              ({ dobj with
                  services := some (aset props.uuid s.heap.length svcs) } : Obj)
            ++ [{ svcObj path with
              characteristics := some (spliceChars s.heap s.pathMap path) }])
          (aset path s.heap.length s.pathMap) path =
          spliceChars s.heap s.pathMap path := by
        have hy3 := hy
        simp only [spliceChars] at hy3
        simp [spliceChars, alookup_aset_self, hy3]
      refine viewState_swap ?w2 ?n2 ?a2 ?c2 ?y2 ?hw2 ?hn2 ?hnw2 ?hu12 ?hy2
        ?hh2 ?hrel2 ?hall2 ?hap2 ?had2 ?hdev2 ?hpm2 d
      case hu12 =>
        exact hget_append_of_lt (hget_hset_self hdo _) _
      case hy2 => exact hy
      case hh2 =>
        rw [hsc]
        exact rfl
      case hap2 => exact rfl
      case had2 => exact rfl
      case hw2 =>
        rw [hLp]
        omega
      case hn2 =>
        rw [hLp]
        omega
      case hnw2 => omega
      case hrel2 =>
        refine ⟨rfl, ?_, ?_, ?_⟩
        · apply forall₂_aset_present
          · exact alookup_aset_self _ _ _
          · intro kv hkv
            rcases mem_aset hkv with h4 | h4
            · rw [h4]
              refine ⟨rfl, Or.inl ⟨rfl, ?_, ?_⟩⟩
              · rw [hLp]
                show s.heap.length < s.heap.length + 1
                omega
              · rw [hLp]
                show s.heap.length ≠ s.heap.length + 1
                omega
            · have := hsvb kv h4
              refine ⟨rfl, Or.inl ⟨rfl, ?_, ?_⟩⟩
              · rw [hLp]
                omega
              · rw [hLp]
                omega
          · exact ⟨rfl, Or.inr ⟨rfl, rfl⟩⟩
        · refine omRel_refl_below (Nat.le_refl _) ?_
          refine idsBelow_mono ?_ hwo.2.1
          rw [hLp]
          omega
        · refine omRel_refl_below (Nat.le_refl _) ?_
          refine idsBelow_mono ?_ hwo.2.2
          rw [hLp]
          omega
      case hall2 =>
        intro i o hib hiw hgo
        rw [hLp] at hib
        rw [hLp]
        by_cases hin : i = s.heap.length
        · subst hin
          rw [hy] at hgo
          injection hgo with hgo
          subst hgo
          rw [wfObj, Bool.and_eq_true, Bool.and_eq_true]
          refine ⟨⟨rfl, ?_⟩, rfl⟩
          exact idsBelow_of_mem fun kv hkv => by
            have := spliceChars_bound hwf path kv hkv
            omega
        · have hi : i < s.heap.length := by omega
          have hi2 : i < (hset s.heap did
              ({ dobj with
                  services :=
                    some (aset props.uuid s.heap.length svcs) } : Obj)).length := by
            rw [length_hset]
            exact hi
          rw [hget_append_lt hi2, hget_hset_ne hiw] at hgo
          exact wfObj_mono (by omega) (hwh o (hget_mem hgo))
      case hdev2 =>
        refine devices_refl (l := s.devices) fun kv hkv i hv =>
          Or.inl ⟨rfl, ?_, ?_⟩
        · rw [hLp]
          have := hwd kv hkv i hv
          omega
        · rw [hLp]
          have := hwd kv hkv i hv
          omega
      case hpm2 =>
        apply forall₂_aset_present
        · exact alookup_aset_self _ _ _
        · intro kv hkv
          rcases mem_aset hkv with h4 | h4
          · rw [h4]
            refine ⟨rfl, Or.inl ⟨rfl, ?_, ?_⟩⟩
            · rw [hLp]
              show s.heap.length < s.heap.length + 1
              omega
            · rw [hLp]
              show s.heap.length ≠ s.heap.length + 1
              omega
          · have := hwp kv h4
            refine ⟨rfl, Or.inl ⟨rfl, ?_, ?_⟩⟩
            · rw [hLp]
              omega
            · rw [hLp]
              omega
        · exact ⟨rfl, Or.inr ⟨rfl, rfl⟩⟩

/-! ## The claims -/

/-- C1 (counterexample): feeding the service-added notification while its
device path does not exist yet makes `getDevice(props.Device)` inside the
service branch throw `Error("Device not found")`; the service entity is lost
(never attached to any device), so after the C1 scenario order
(service, device, characteristic) the device's service map does *not*
contain the service UUID — there is not even a constructed device whose
service map could contain it. -/
theorem C1_counterexample :
    sSvcFirst.2 = some (.jsError "Device not found") ∧
    deviceHasService sBadOrder devAddr "svc-uuid" = false ∧
    deviceServiceChar sBadOrder devAddr "svc-uuid" "chr-uuid" = false :=
  ⟨rfl, rfl, rfl⟩

/-- C1 (amended): out-of-order convergence fails in general (service before
device loses the service), but when the device-added notification precedes
the service-added one and the characteristic follows, the hierarchy is
correct: the device's service map contains the service UUID and that
service's characteristic map contains the characteristic UUID. -/
theorem C1_amended_parent_first_hierarchy :
    deviceServiceChar sGoodOrder devAddr "svc-uuid" "chr-uuid" = true ∧
    deviceHasService sGoodOrder devAddr "svc-uuid" = true :=
  ⟨rfl, rfl⟩

/-- C2: a characteristic-added notification naming a service path with no
service entity yet is held under a placeholder keyed by that path and
spliced into the service when the service-added notification arrives; in
either order (characteristic first or service first), once both are
applied the characteristic is reachable by its UUID from the
characteristic map of the service attached to the device. -/
theorem C2_orphaned_characteristic_spliced
    (t : Transport) (s : BluezState) (spath cpath p0 : String)
    (sprops cprops : PropBag)
    (ht : ∀ q i, t q i = true)
    (hcs : cprops.service = spath)
    (hdev : alookup (normalizeAddr sprops.device) s.devices = some (.path p0))
    (hfs : alookup spath s.pathMap = none)
    (hfc : alookup cpath s.pathMap = none)
    (hne : cpath ≠ spath) :
    deviceServiceChar
      (onInterfacesAdded t
        (onInterfacesAdded t s cpath { gattCharacteristic1 := some cprops }).1
        spath { gattService1 := some sprops }).1
      (normalizeAddr sprops.device) sprops.uuid cprops.uuid = true ∧
    deviceServiceChar
      (onInterfacesAdded t
        (onInterfacesAdded t s spath { gattService1 := some sprops }).1
        cpath { gattCharacteristic1 := some cprops }).1
      (normalizeAddr sprops.device) sprops.uuid cprops.uuid = true := by
  subst hcs
  constructor
  · -- characteristic first, then service: splice from the placeholder
    rw [onAdded_characteristic_only, addCharacteristic_orphan cprops ht hfc hfs]
    dsimp only
    rw [onAdded_service_only]
    have hpm : alookup cprops.service
        (aset cpath s.heap.length (aset cprops.service (s.heap.length + 1) s.pathMap)) =
        some (s.heap.length + 1) := by
      rw [alookup_aset_ne (Ne.symm hne), alookup_aset_self]
    have hpo := hget_append_cons_one s.heap (chrObj cpath)
      ({ kind := .placeholder, characteristics := some [(cprops.uuid, s.heap.length)] } : Obj)
      []
    have e2 := @addService_splice t
      { s with
        heap := s.heap ++ [chrObj cpath,
          { kind := .placeholder, characteristics := some [(cprops.uuid, s.heap.length)] }],
        pathMap := aset cpath s.heap.length
          (aset cprops.service (s.heap.length + 1) s.pathMap),
        binds := ⟨cpath, "org.freedesktop.DBus.Properties"⟩ ::
                 ⟨cpath, "org.bluez.GattCharacteristic1"⟩ :: s.binds }
      cprops.service p0 (s.heap.length + 1)
      { kind := .placeholder, characteristics := some [(cprops.uuid, s.heap.length)] }
      sprops ht hpm hpo hdev
    rw [e2]
    dsimp only
    simp only [deviceServiceChar, alookup_aset_self, hget_append_cons_one,
      hget_append_cons, svcObj, devObj, chrObj, alookup, Option.getD_some,
      Option.isSome_some, eq_self_iff_true, if_true]
  · -- service first, then characteristic: attach directly to the service
    rw [onAdded_service_only, addService_fresh sprops ht hfs hdev]
    dsimp only
    rw [onAdded_characteristic_only]
    have hc2 : alookup cpath (aset cprops.service s.heap.length s.pathMap) = none := by
      rw [alookup_aset_ne hne, hfc]
    have hs2 : alookup cprops.service (aset cprops.service s.heap.length s.pathMap) =
        some s.heap.length := alookup_aset_self _ _ _
    have hso := hget_append_cons s.heap (svcObj cprops.service)
      [{ devObj p0 (replaceAll ':' '_' sprops.device) with
          services := some [(sprops.uuid, s.heap.length)] }]
    have e2 := @addCharacteristic_under t
      { s with
        heap := s.heap ++ [svcObj cprops.service,
          { devObj p0 (replaceAll ':' '_' sprops.device) with
              services := some [(sprops.uuid, s.heap.length)] }],
        devices := aset (normalizeAddr sprops.device)
          (.obj (s.heap.length + 1)) s.devices,
        pathMap := aset cprops.service s.heap.length s.pathMap,
        binds := ⟨"/org/bluez/hci0/dev_" ++ replaceAll ':' '_' sprops.device,
                  "org.freedesktop.DBus.Properties"⟩ ::
                 ⟨p0, "org.bluez.Device1"⟩ ::
                 ⟨cprops.service, "org.bluez.GattService1"⟩ :: s.binds }
      cpath s.heap.length (svcObj cprops.service) []
      cprops ht hc2 hs2 hso rfl
    rw [e2]
    dsimp only
    simp only [deviceServiceChar, alookup_aset_self, hset_append_cons,
      List.append_assoc, List.cons_append, List.singleton_append,
      List.nil_append, hget_append_cons_one, hget_append_cons, aset,
      svcObj, devObj, chrObj, alookup, Option.getD_some, Option.isSome_some,
      eq_self_iff_true, if_true]

/-- C2 (witness): the orphan-splice theorem at the concrete fixture paths
and UUIDs, from the state in which only the device is registered. -/
theorem C2_witness :
    (∀ q i, tAll q i = true) ∧
    chrProps.service = svcPath ∧
    alookup (normalizeAddr svcProps.device) sDevice.devices = some (.path devPath) ∧
    alookup svcPath sDevice.pathMap = none ∧
    alookup chrPath sDevice.pathMap = none ∧
    chrPath ≠ svcPath ∧
    deviceServiceChar
      (onInterfacesAdded tAll
        (onInterfacesAdded tAll sDevice chrPath { gattCharacteristic1 := some chrProps }).1
        svcPath { gattService1 := some svcProps }).1
      (normalizeAddr svcProps.device) svcProps.uuid chrProps.uuid = true :=
  ⟨fun _ _ => rfl, rfl, by decide, rfl, rfl, by decide,
   (C2_orphaned_characteristic_spliced tAll sDevice svcPath chrPath devPath
     svcProps chrProps (fun _ _ => rfl) rfl (by decide) rfl rfl (by decide)).1⟩

/-- C3 (counterexample): replaying the same device-added notification for
the same (already-registered) path fires the `'device'` event a second
time — the event is not "exactly once per distinct path-creation". -/
theorem C3_counterexample :
    countDeviceEvents sDevice.events = 1 ∧
    countDeviceEvents sDeviceTwice.events = 2 :=
  ⟨rfl, rfl⟩

/-- C3 (amended): the `'device'` event fires on *every* processed
notification naming the Device capability — property refreshes and
re-announcements included — never being suppressed for an
already-registered path. -/
theorem C3_amended_device_event_every_time (t : Transport) (s : BluezState)
    (path : String) (ifaces : AddedIfaces) (props : PropBag)
    (h : ifaces.device1 = some props) :
    countDeviceEvents (onInterfacesAdded t s path ifaces).1.events
      = countDeviceEvents s.events + 1 := by
  rw [onInterfacesAdded_events, h]
  rfl

/-- C3 (witness): the amended theorem applied to a replayed device-added
notification at the already-registered fixture path. -/
theorem C3_amended_witness :
    ({ device1 := some devProps } : AddedIfaces).device1 = some devProps ∧
    countDeviceEvents (onInterfacesAdded tAll sDevice devPath
        { device1 := some devProps }).1.events
      = countDeviceEvents sDevice.events + 1 :=
  ⟨rfl, C3_amended_device_event_every_time tAll sDevice devPath
    { device1 := some devProps } devProps rfl⟩

/-- C4 (counterexample): an "interfaces removed" notification naming the
GattService1 capability at a registered service's path is a complete no-op:
the state is unchanged, the service stays in the path index and in the
device's service map, and nothing is marked dead. -/
theorem C4_counterexample :
    onInterfaceRemoved sDevSvc svcPath ["org.bluez.GattService1"] = (sDevSvc, none) ∧
    (alookup svcPath sDevSvc.pathMap).isSome = true ∧
    deviceHasService sDevSvc devAddr "svc-uuid" = true :=
  ⟨rfl, rfl, rfl⟩

/-- C4 (amended): only the Device and Adapter capabilities are acted on by
`onInterfaceRemoved`.  A removal naming neither leaves the state entirely
unchanged (Service/Characteristic/Descriptor entities are never destroyed
and the path index is never cleaned); a Device removal at a
device-parsable path deletes only the address→device entry; an Adapter
removal at an adapter-parsable path deletes only the adapter entry. -/
theorem C4_amended_only_device_and_adapter_removed :
    (∀ (s : BluezState) (path : String) (interfaces : List String),
      "org.bluez.Device1" ∉ interfaces → "org.bluez.Adapter1" ∉ interfaces →
      onInterfaceRemoved s path interfaces = (s, none)) ∧
    (∀ (s : BluezState) (path w1 w2 : String),
      matchRemovePath path = some (w1, some w2) →
      onInterfaceRemoved s path ["org.bluez.Device1"] =
        ({ s with devices := adel (replaceAll '_' ':' w2) s.devices }, none)) ∧
    (∀ (s : BluezState) (path w1 : String) (w2 : Option String),
      matchRemovePath path = some (w1, w2) → w1.data.isEmpty = false →
      onInterfaceRemoved s path ["org.bluez.Adapter1"] =
        ({ s with adapter := adel w1 s.adapter }, none)) := by
  refine ⟨fun s path interfaces h1 h2 => ?_, fun s path w1 w2 h => ?_,
    fun s path w1 w2 h hw => ?_⟩
  · simp [onInterfaceRemoved, removeAdapterPart, h1, h2]
  · simp [onInterfaceRemoved, removeAdapterPart, h]
  · simp [onInterfaceRemoved, removeAdapterPart, h, hw]

/-- C4 (witness): the amended theorem at concrete inputs — a service
removal that is ignored, a device removal that deletes the address entry,
and an adapter removal that deletes the adapter entry. -/
theorem C4_amended_witness :
    ("org.bluez.Device1" ∉ ["org.bluez.GattService1"] ∧
      "org.bluez.Adapter1" ∉ ["org.bluez.GattService1"] ∧
      onInterfaceRemoved sDevSvc svcPath ["org.bluez.GattService1"] = (sDevSvc, none)) ∧
    (matchRemovePath devPath = some ("hci0", some "AA_BB_CC_DD_EE_FF") ∧
      onInterfaceRemoved sDevice devPath ["org.bluez.Device1"] =
        ({ sDevice with
            devices := adel (replaceAll '_' ':' "AA_BB_CC_DD_EE_FF") sDevice.devices },
         none)) ∧
    (matchRemovePath "/org/bluez/hci0" = some ("hci0", none) ∧
      ("hci0" : String).data.isEmpty = false ∧
      onInterfaceRemoved sDevice "/org/bluez/hci0" ["org.bluez.Adapter1"] =
        ({ sDevice with adapter := adel "hci0" sDevice.adapter }, none)) :=
  ⟨⟨by decide, by decide,
     C4_amended_only_device_and_adapter_removed.1 sDevSvc svcPath
       ["org.bluez.GattService1"] (by decide) (by decide)⟩,
   ⟨by decide,
     C4_amended_only_device_and_adapter_removed.2.1 sDevice devPath
       "hci0" "AA_BB_CC_DD_EE_FF" (by decide)⟩,
   ⟨by decide, by decide,
     C4_amended_only_device_and_adapter_removed.2.2 sDevice "/org/bluez/hci0"
       "hci0" none (by decide) (by decide)⟩⟩

/-- C5: for an "interfaces removed" notification naming the Device
capability at a path that does not match the removal regex at all, the
handler does not emit a "synchronization error" event — the null regex
match makes `match[2]` throw a `TypeError`, rejecting the handler with the
state (and so the event log) unchanged.  The spec's stated intent (report a
non-fatal error event, never crash, keep processing) is contradicted. -/
theorem C5_unparseable_removal_throws (s : BluezState) :
    onInterfaceRemoved s "/foo" ["org.bluez.Device1"] =
      (s, some (.typeError "Cannot read properties of null")) :=
  rfl

/-- C6: after adapter `hci0` and the device at `AA:BB:CC:DD:EE:FF` are
announced, `getDevice` of that address succeeds; `getDevice` of a never
announced address throws `Error("Device not found")`; and after the Device
capability is removed at the device's path, `getDevice` of the original
address throws `Error("Device not found")` again. -/
theorem C6_lookup_scenario :
    (getDevice tAll sDevice devAddr).2 = .ok 0 ∧
    (getDevice tAll sDevice "11:22:33:44:55:66").2 =
      .error (.jsError "Device not found") ∧
    (getDevice tAll sRemoved devAddr).2 = .error (.jsError "Device not found") :=
  ⟨rfl, rfl, rfl⟩

/-- C7 (counterexample): `getAdapter("hci0")` on a freshly constructed
instance — no adapter ever announced, the adapter map empty — succeeds
anyway, because the resolver falls back to binding the default path
`/org/bluez/hci0` on the transport. -/
theorem C7_counterexample :
    alookup "hci0" init.adapter = none ∧
    (getAdapter tAll init "hci0").2 = .ok ⟨"/org/bluez/hci0", "org.bluez.Adapter1"⟩ :=
  ⟨rfl, rfl⟩

/-- C7 (amended): for an identifier with no registered adapter entry,
`getAdapter` tries the default path `/org/bluez/<id>` on the transport: it
fails (with `Error("Adapter not found")`) exactly when that bind fails, and
succeeds — returning a handle for an adapter that was never announced —
whenever the transport satisfies the bind. -/
theorem C7_amended_default_path_fallback (t : Transport) (s : BluezState)
    (d : String) (hn : matchAdapterPath d = none)
    (ha : alookup d s.adapter = none) :
    (t ("/org/bluez/" ++ d) "org.bluez.Adapter1" = false →
      getAdapter t s d =
        ({ s with binds := ⟨"/org/bluez/" ++ d, "org.bluez.Adapter1"⟩ :: s.binds },
         .error (.jsError "Adapter not found"))) ∧
    (t ("/org/bluez/" ++ d) "org.bluez.Adapter1" = true →
      getAdapter t s d =
        ({ s with
            adapter := aset d (.obj ⟨"/org/bluez/" ++ d, "org.bluez.Adapter1"⟩) s.adapter,
            binds := ⟨"/org/bluez/" ++ d, "org.bluez.Adapter1"⟩ :: s.binds },
         .ok ⟨"/org/bluez/" ++ d, "org.bluez.Adapter1"⟩)) := by
  constructor <;> intro h <;> simp [getAdapter, getInterface, hn, ha, h]

/-- C7 (witness): the amended theorem at `hci0` on the all-satisfying
transport, starting from the fresh instance. -/
theorem C7_amended_witness :
    matchAdapterPath "hci0" = none ∧
    alookup "hci0" init.adapter = none ∧
    (tAll ("/org/bluez/" ++ "hci0") "org.bluez.Adapter1" = true →
      getAdapter tAll init "hci0" =
        ({ init with
            adapter := aset "hci0"
              (.obj ⟨"/org/bluez/" ++ "hci0", "org.bluez.Adapter1"⟩) init.adapter,
            binds := ⟨"/org/bluez/" ++ "hci0", "org.bluez.Adapter1"⟩ :: init.binds },
         .ok ⟨"/org/bluez/" ++ "hci0", "org.bluez.Adapter1"⟩)) :=
  ⟨by decide, rfl,
   (C7_amended_default_path_fallback tAll init "hci0" (by decide) rfl).2⟩

/-- C8 (counterexample): in the fully concurrent interleaving of two
`getDevice(devAddr)` calls (both initial checks run before either install),
the transport receives *two* `org.bluez.Device1` bind calls — not exactly
one — although both callers do end up with the same handle (heap id 0). -/
theorem C8_counterexample :
    countBinds "org.bluez.Device1"
      (raceOutcome [true, false, true, false, true, false]).1.binds = 2 ∧
    (raceOutcome [true, false, true, false, true, false]).2.1.result = some (.ok 0) ∧
    (raceOutcome [true, false, true, false, true, false]).2.2.result = some (.ok 0) :=
  ⟨rfl, rfl, rfl⟩

/-- C8 (amended): there is no single-flight guard — each concurrent caller
performs its own transport binds — but the post-await recheck ensures that
under *every* schedule of the two callers' segments both calls complete
and receive the same handle instance. -/
theorem C8_amended_same_handle_every_schedule :
    ∀ order ∈ boolLists 6, order.count true = 3 →
      ((raceOutcome order).2.1.result).isSome = true ∧
      (raceOutcome order).2.1.result = (raceOutcome order).2.2.result := by
  decide

/-- C8 (witness): the amended theorem at the sequential-overlap schedule
A,A,A,B,B,B. -/
theorem C8_amended_witness :
    [true, true, true, false, false, false] ∈ boolLists 6 ∧
    [true, true, true, false, false, false].count true = 3 ∧
    (((raceOutcome [true, true, true, false, false, false]).2.1.result).isSome = true ∧
      (raceOutcome [true, true, true, false, false, false]).2.1.result =
        (raceOutcome [true, true, true, false, false, false]).2.2.result) :=
  ⟨by decide, by decide,
   C8_amended_same_handle_every_schedule [true, true, true, false, false, false]
     (by decide) (by decide)⟩

/-- C9 (counterexample): replaying an "interfaces added" notification is
not idempotent.  A notification naming both `GattService1` and
`GattCharacteristic1` at `svcPath` (fed after a characteristic was
orphaned under that path): both applications complete without throwing,
yet after the first application the orphaned characteristic `chr-uuid` is
reachable from the device through `svc-uuid`, and after the replay it no
longer is — `this._path[path] = characteristic` (`Bluez.js` line 309)
re-points the path index at the characteristic, so the replayed service
branch copies its `undefined` `characteristics` map (`|| {}`) and the
spliced child is lost. -/
theorem C9_counterexample :
    c9Once.2 = none ∧ c9Twice.2 = none ∧
    deviceServiceChar c9Once.1 devAddr "svc-uuid" "chr-uuid" = true ∧
    deviceServiceChar c9Twice.1 devAddr "svc-uuid" "chr-uuid" = false :=
  ⟨rfl, rfl, rfl, rfl⟩

/-- C9 (amended): replaying a notification naming a *single* capability is
idempotent on the observable entity state.  From any well-formed registry
state, over any transport, applying the same single-capability
"interfaces added" notification twice yields the same observable object
graph (equal `viewState` at every depth) as applying it once, for each of
the five capabilities. -/
theorem C9_amended_single_capability_idempotent (t : Transport)
    (s : BluezState) (path : String) (props : PropBag)
    (hwf : wf s = true) (d : Nat) :
    (viewState d (onInterfacesAdded t
        (onInterfacesAdded t s path { adapter1 := some props }).1 path
        { adapter1 := some props }).1 =
      viewState d (onInterfacesAdded t s path { adapter1 := some props }).1) ∧
    (viewState d (onInterfacesAdded t
        (onInterfacesAdded t s path { device1 := some props }).1 path
        { device1 := some props }).1 =
      viewState d (onInterfacesAdded t s path { device1 := some props }).1) ∧
    (viewState d (onInterfacesAdded t
        (onInterfacesAdded t s path { gattService1 := some props }).1 path
        { gattService1 := some props }).1 =
      viewState d (onInterfacesAdded t s path
        { gattService1 := some props }).1) ∧
    (viewState d (onInterfacesAdded t
        (onInterfacesAdded t s path { gattCharacteristic1 := some props }).1
        path { gattCharacteristic1 := some props }).1 =
      viewState d (onInterfacesAdded t s path
        { gattCharacteristic1 := some props }).1) ∧
    (viewState d (onInterfacesAdded t
        (onInterfacesAdded t s path { gattDescriptor1 := some props }).1 path
        { gattDescriptor1 := some props }).1 =
      viewState d (onInterfacesAdded t s path
        { gattDescriptor1 := some props }).1) := by
  refine ⟨rfl, ?_, ?_, ?_, ?_⟩
  · rw [onAdded_device_only, onAdded_device_only]
    apply viewState_eq_of_fields
    · rfl
    · rfl
    · exact aset_aset_self _ _ _ _
    · rfl
    · rfl
  · rw [onAdded_service_only, onAdded_service_only]
    exact replay_service t s path props hwf d
  · rw [onAdded_characteristic_only, onAdded_characteristic_only]
    exact replay_characteristic t s path props hwf d
  · rw [onAdded_descriptor_only, onAdded_descriptor_only]
    exact replay_descriptor t s path props hwf d

/-- C9 (amended, witness): the state with adapter and device registered is
well formed, and replaying the service-added notification on it leaves
the depth-3 observable entity state unchanged. -/
theorem C9_amended_witness :
    wf sDevice = true ∧
    viewState 3 (onInterfacesAdded tAll
        (onInterfacesAdded tAll sDevice svcPath
          { gattService1 := some svcProps }).1 svcPath
        { gattService1 := some svcProps }).1 =
      viewState 3 (onInterfacesAdded tAll sDevice svcPath
        { gattService1 := some svcProps }).1 :=
  ⟨rfl, (C9_amended_single_capability_idempotent tAll sDevice svcPath svcProps
    rfl 3).2.2.1⟩

/-- C10: whenever `getDevice` constructs a new handle, the
property-change (`org.freedesktop.DBus.Properties`) interface is bound at
`"/org/bluez/hci0/dev_"` concatenated with the *entire* input identifier
with `:` replaced by `_` — the adapter segment is hardcoded `hci0` no
matter which path is registered for the address, and a path-form input is
substituted wholesale rather than via its extracted device id. -/
theorem C10_properties_bind_path (t : Transport) (s : BluezState) (a p : String)
    (ht : ∀ q i, t q i = true)
    (hd : alookup (normalizeAddr a) s.devices = some (.path p)) :
    (getDevice t s a).1.binds =
      ⟨"/org/bluez/hci0/dev_" ++ replaceAll ':' '_' a,
       "org.freedesktop.DBus.Properties"⟩ ::
      ⟨p, "org.bluez.Device1"⟩ :: s.binds := by
  rw [getDevice_installs ht hd]

/-- C10 (witness): resolving a device registered on adapter `hci1` by its
full path binds Properties at the nonsensical
`/org/bluez/hci0/dev_/org/bluez/hci1/dev_AA_BB`. -/
theorem C10_witness :
    (∀ q i, tAll q i = true) ∧
    alookup (normalizeAddr "/org/bluez/hci1/dev_AA_BB") sHci1.devices =
      some (.path "/org/bluez/hci1/dev_AA_BB") ∧
    (getDevice tAll sHci1 "/org/bluez/hci1/dev_AA_BB").1.binds =
      ⟨"/org/bluez/hci0/dev_" ++ replaceAll ':' '_' "/org/bluez/hci1/dev_AA_BB",
       "org.freedesktop.DBus.Properties"⟩ ::
      ⟨"/org/bluez/hci1/dev_AA_BB", "org.bluez.Device1"⟩ :: sHci1.binds :=
  ⟨fun _ _ => rfl, rfl,
   C10_properties_bind_path tAll sHci1 "/org/bluez/hci1/dev_AA_BB"
     "/org/bluez/hci1/dev_AA_BB" (fun _ _ => rfl) rfl⟩

end Bluez
